import Mathlib

/- Shallow embedding of the Browser-Agent Chrome extension: the DOM snapshot
extractor (dom-extractor.js), the uid registry and resolver (uid-generator.js),
action-execution helpers (content-script.js) and the sidebar automation loop
(sidebar.js).  Machine-level DOM services (CSS/XPath engines, timers, the
planning backend) are modelled as explicit environments; every embedded
function mirrors the corresponding JavaScript source.  The theorems at the end
check the specification's claims against this embedding. -/

set_option maxHeartbeats 1000000

namespace BrowserAgent

/-! JavaScript string primitives shared by the embedded functions. -/

/-- One pass of collapsing whitespace runs, tracking whether the previous
character was whitespace; models the global regex replacement of each maximal
whitespace run by a single space. -/
def collapseWsGo : Bool → List Char → List Char
  | _, [] => []
  | prevWs, c :: rest =>
    if c.isWhitespace then
      if prevWs then collapseWsGo true rest
      else ' ' :: collapseWsGo true rest
    else c :: collapseWsGo false rest

/-- JS replace of every maximal whitespace run by one space. -/
def jsCollapseWs (s : String) : String := String.mk (collapseWsGo false s.data)

/-- JS String.trim modelled structurally on the character list. -/
def jsTrim (s : String) : String :=
  String.mk
    (((s.data.dropWhile Char.isWhitespace).reverse.dropWhile
      Char.isWhitespace).reverse)

/-- JS String.toLowerCase modelled structurally on the character list. -/
def jsToLower (s : String) : String := String.mk (s.data.map Char.toLower)

/-- The cleaning chain used by findByText: trim, lower-case, collapse
whitespace runs. -/
def jsCleanText (s : String) : String := jsCollapseWs (jsToLower (jsTrim s))

/-- normalizeText from content-script.js: empty for falsy input, else trim and
collapse whitespace runs. -/
def normalizeText (s : String) : String :=
  if s == "" then "" else jsCollapseWs (jsTrim s)

/-- JS String.includes: substring containment. -/
def jsIncludes (s sub : String) : Bool := decide (List.IsInfix sub.data s.data)

/-- JS truthiness of an optional string: present and non-empty. -/
def truthyStr : Option String → Option String
  | some s => if s == "" then none else some s
  | none => none

/-- JS a || b for optional strings (first truthy wins). -/
def jsOrStr (a b : Option String) : Option String :=
  match truthyStr a with
  | some s => some s
  | none => truthyStr b

/-! Arithmetic of simpleHash (dom-extractor.js): 32-bit signed wrap-around and
base-36 rendering of the absolute value. -/

/-- Wrap an integer into the signed 32-bit range, as JS bitwise operators do. -/
def toInt32 (z : Int) : Int :=
  let m := z % 4294967296
  if m < 2147483648 then m else m - 4294967296

/-- One character step of simpleHash: hash = (hash << 5) - hash + code, forced
back to a 32-bit integer by the bitwise and. -/
def simpleHashStep (h : Int) (code : Nat) : Int :=
  toInt32 (toInt32 (h * 32) - h + code)

/-- The signed accumulator of simpleHash over the character codes. -/
def simpleHashInt (s : String) : Int :=
  s.data.foldl (fun h c => simpleHashStep h c.toNat) 0

/-- A base-36 digit character, as JS Number.toString(36) renders digits. -/
def base36DigitChar (m : Nat) : Char :=
  if m < 10 then Char.ofNat (48 + m) else Char.ofNat (87 + m)

/-- Fuelled base-36 rendering loop (digits accumulate in front). -/
def toBase36Go : Nat → Nat → List Char → List Char
  | 0, _, acc => acc
  | fuel + 1, n, acc =>
    let d := base36DigitChar (n % 36)
    let n' := n / 36
    if n' = 0 then d :: acc else toBase36Go fuel n' (d :: acc)

/-- JS Number.toString(36) on a natural number. -/
def natToBase36 (n : Nat) : String := String.mk (toBase36Go (n + 1) n [])

/-- simpleHash from dom-extractor.js: signed 32-bit rolling hash, absolute
value, base-36 rendering. -/
def simpleHash (s : String) : String := natToBase36 (simpleHashInt s).natAbs

/-! Decimal parsing facts about Nat.repr, needed to show that the traversal
ordinal appended to a fingerprint uid separates distinct indices. -/

/-- Value of a decimal digit character. -/
def decDigitVal (c : Char) : Nat := c.toNat - 48

/-- Parse a decimal digit string (left fold). -/
def decParse (l : List Char) : Nat :=
  l.foldl (fun a c => 10 * a + decDigitVal c) 0

theorem decDigitVal_digitChar {m : Nat} (hm : m < 10) :
    decDigitVal (Nat.digitChar m) = m := by
  interval_cases m <;> rfl

theorem digitChar_ne_underscore {m : Nat} (hm : m < 10) :
    Nat.digitChar m ≠ '_' := by
  interval_cases m <;> decide

theorem decParse_append (l1 l2 : List Char) :
    decParse (l1 ++ l2) =
      List.foldl (fun a c => 10 * a + decDigitVal c) (decParse l1) l2 := by
  simp [decParse, List.foldl_append]

/-- toDigitsCore at base 10 with enough fuel produces a non-empty run of
decimal digit characters in front of the accumulator whose parsed value is the
input. -/
theorem toDigitsCore_decomp (f : Nat) : ∀ (k : Nat) (tl : List Char),
    k < f →
    ∃ run : List Char, Nat.toDigitsCore 10 f k tl = run ++ tl ∧ run ≠ [] ∧
      (∀ c ∈ run, ∃ v, v < 10 ∧ c = Nat.digitChar v) ∧ decParse run = k := by
  induction f with
  | zero =>
    intro k tl h
    omega
  | succ f ih =>
    intro k tl hk
    by_cases hq : k / 10 = 0
    · have hsmall : k < 10 := by omega
      have hmod : k % 10 = k := Nat.mod_eq_of_lt hsmall
      refine ⟨[Nat.digitChar (k % 10)], ?_, by simp, ?_, ?_⟩
      · show Nat.toDigitsCore 10 (f + 1) k tl = _
        rw [Nat.toDigitsCore]
        simp [hq]
      · intro c hc
        refine ⟨k % 10, by omega, ?_⟩
        rw [List.mem_singleton] at hc
        exact hc
      · simp [decParse, hmod, decDigitVal_digitChar hsmall]
    · have hbig : 10 ≤ k := by
        by_contra hcon
        exact hq (Nat.div_eq_of_lt (by omega))
      have hq_lt : k / 10 < f := by
        have hd : k / 10 < k := Nat.div_lt_self (by omega) (by omega)
        omega
      obtain ⟨run, hrun, hrun_ne, hrun_dig, hrun_val⟩ :=
        ih (k / 10) (Nat.digitChar (k % 10) :: tl) hq_lt
      refine ⟨run ++ [Nat.digitChar (k % 10)], ?_, by simp, ?_, ?_⟩
      · show Nat.toDigitsCore 10 (f + 1) k tl = _
        rw [Nat.toDigitsCore]
        simp only [hq, if_false]
        rw [hrun, List.append_assoc]
        rfl
      · intro c hc
        rw [List.mem_append] at hc
        cases hc with
        | inl hin => exact hrun_dig c hin
        | inr hin =>
          rw [List.mem_singleton] at hin
          exact ⟨k % 10, by omega, hin⟩
      · rw [decParse_append, hrun_val]
        simp only [List.foldl_cons, List.foldl_nil]
        rw [decDigitVal_digitChar (by omega)]
        omega

/-- The decimal parse of the rendering of a natural number recovers it. -/
theorem decParse_repr (n : Nat) : decParse (Nat.repr n).data = n := by
  obtain ⟨ds, hds, _, _, hval⟩ :=
    toDigitsCore_decomp (n + 1) n [] (Nat.lt_succ_self n)
  show decParse (Nat.toDigits 10 n).asString.data = n
  rw [Nat.toDigits, hds, List.append_nil]
  exact hval

theorem nat_repr_inj {m n : Nat} (h : Nat.repr m = Nat.repr n) : m = n := by
  have hm := decParse_repr m
  have hn := decParse_repr n
  rw [h] at hm
  omega

/-- Every character of the decimal rendering is a digit, hence not an
underscore. -/
theorem repr_no_underscore (n : Nat) : ∀ c ∈ (Nat.repr n).data, c ≠ '_' := by
  obtain ⟨ds, hds, _, hdig, _⟩ :=
    toDigitsCore_decomp (n + 1) n [] (Nat.lt_succ_self n)
  intro c hc
  have : c ∈ ds := by
    show c ∈ ds
    have : (Nat.repr n).data = ds := by
      show (Nat.toDigits 10 n).asString.data = ds
      rw [Nat.toDigits, hds, List.append_nil]
      rfl
    rwa [this] at hc
  obtain ⟨m, hm, rfl⟩ := hdig c this
  exact digitChar_ne_underscore hm

/-! The segment of a character list after its last underscore. -/

/-- Characters after the last underscore (computed from the reversed list). -/
def lastSegment (l : List Char) : List Char :=
  (l.reverse.takeWhile (fun c => c != '_')).reverse

theorem takeWhile_append_all {p : Char → Bool} (l1 l2 : List Char)
    (h : ∀ c ∈ l1, p c = true) :
    (l1 ++ l2).takeWhile p = l1 ++ l2.takeWhile p := by
  induction l1 with
  | nil => simp
  | cons c rest ih =>
    have hc : p c = true := h c (List.mem_cons_self c rest)
    simp only [List.cons_append, List.takeWhile_cons, hc, if_true]
    rw [ih (fun x hx => h x (List.mem_cons_of_mem c hx))]

theorem lastSegment_append (a r : List Char) (h : ∀ c ∈ r, c ≠ '_') :
    lastSegment (a ++ '_' :: r) = r := by
  unfold lastSegment
  rw [List.reverse_append, List.reverse_cons]
  rw [List.append_assoc]
  rw [takeWhile_append_all r.reverse (['_'] ++ a.reverse)
    (by intro c hc; rw [List.mem_reverse] at hc; simpa using h c hc)]
  simp

/-! Embedding of uid-generator.js: the uid registry and the multi-strategy
element resolver.  The CSS and XPath engines consulted for the opaque
recorded selector strings are modelled as oracle functions of the environment;
the simple selectors the resolver builds itself (tag plus attribute filters,
bare tag queries) are interpreted concretely over the document, a list of
elements in document order.  A query oracle answers none where the engine
would throw on an unparsable selector. -/

/-- A DOM element as seen by the resolver: connection state, the computed
style fields consulted by the liveness check, tag, attributes and text
content. -/
structure RElem where
  connected : Bool
  display : String
  visibility : String
  tag : String
  attrs : List (String × String)
  textContent : String
deriving Repr, DecidableEq

/-- getAttribute on the resolver's element model. -/
def RElem.getAttr (e : RElem) (k : String) : Option String :=
  (e.attrs.find? (fun p => p.1 == k)).map (fun p => p.2)

/-- isElementValid from uid-generator.js: still connected and not hidden via
display or visibility. -/
def isElementValid (e : RElem) : Bool :=
  e.connected && !(e.display == "none" || e.visibility == "hidden")

/-- A registry entry: the locator strategies plus bookkeeping, as stored by
registerUID. -/
structure RegistryEntry where
  selector : Option String
  xpath : Option String
  attributes : Option (List (String × String))
  text : Option String
  tag : Option String
  timestamp : Nat
  accessCount : Nat
deriving Repr, DecidableEq

/-- The locator payload handed to registerUID by the extractor. -/
structure Locators where
  selector : Option String
  xpath : Option String
  attributes : Option (List (String × String))
  text : Option String
  tag : Option String
deriving Repr, DecidableEq

/-- The uid registry: a Map in insertion order. -/
abbrev Registry := List (String × RegistryEntry)

def registryGet (reg : Registry) (uid : String) : Option RegistryEntry :=
  (reg.find? (fun p => p.1 == uid)).map (fun p => p.2)

def registrySet (reg : Registry) (uid : String) (e : RegistryEntry) : Registry :=
  if reg.any (fun p => p.1 == uid) then
    reg.map (fun p => if p.1 == uid then (uid, e) else p)
  else reg ++ [(uid, e)]

/-- registerUID from uid-generator.js: store/overwrite the entry with a fresh
timestamp and a zero access count. -/
def registerUID (reg : Registry) (uid : String) (loc : Locators) (now : Nat) :
    Registry :=
  registrySet reg uid
    { selector := loc.selector, xpath := loc.xpath, attributes := loc.attributes
    , text := loc.text, tag := loc.tag, timestamp := now, accessCount := 0 }

/-- The 30-minute TTL of cleanupRegistry, in milliseconds. -/
def registryMaxAge : Nat := 30 * 60 * 1000

/-- cleanupRegistry from uid-generator.js: delete entries older than the TTL
whose access count is still zero.  Times are natural-number milliseconds. -/
def cleanupRegistry (reg : Registry) (now : Nat) : Registry :=
  reg.filter
    (fun p => !(decide (now - p.2.timestamp > registryMaxAge) &&
                p.2.accessCount == 0))

/-- A CSS attribute-selector value that parses without escaping issues; a
quote or backslash in the interpolated value makes the built selector throw. -/
def okSelectorValue (v : String) : Bool :=
  !(v.data.contains '"') && !(v.data.contains '\\')

/-- A string usable as a CSS identifier (attribute or tag name). -/
def okSelectorName (k : String) : Bool :=
  k != "" && k.data.all (fun c => c.isAlphanum || c == '-' || c == '_')

/-- The prioritized identifying attributes of findByAttributes. -/
def stableAttrsList : List String := ["id", "name", "data-testid", "data-test-id"]

/-- JS truthy lookup of an attribute value in the recorded fingerprint. -/
def attrLookupTruthy (attrs : List (String × String)) (k : String) :
    Option String :=
  truthyStr ((attrs.find? (fun p => p.1 == k)).map (fun p => p.2))

/-- Matching against the selector head built as tag-or-star. -/
def matchesTagSel (e : RElem) (tagSel : String) : Bool :=
  tagSel == "*" || e.tag == tagSel

def matchesAttrPairs (e : RElem) (pairs : List (String × String)) : Bool :=
  pairs.all (fun p => e.getAttr p.1 == some p.2)

/-- querySelector for the compound selector the stable-attribute loop builds:
the first document-order match, or an exception (none) when the accumulated
selector is unparsable. -/
def queryStableSelector (doc : List RElem) (tagSel : String)
    (pairs : List (String × String)) : Option (Option RElem) :=
  if (tagSel == "*" || okSelectorName tagSel) &&
      pairs.all (fun p => okSelectorValue p.2) then
    some ((doc.filter
      (fun e => matchesTagSel e tagSel && matchesAttrPairs e pairs)).head?)
  else none

/-- The stable-attribute loop of findByAttributes: for each prioritized
attribute present in the fingerprint the accumulated selector is queried and
its result returned - even a null result; a thrown (unparsable) query keeps
the appended filter and moves on to the next attribute. -/
def findByAttributesStable (doc : List RElem) (tagSel : String)
    (attrs : List (String × String)) :
    List String → List (String × String) → Option (Option RElem)
  | [], _ => none
  | a :: rest, acc =>
    match attrLookupTruthy attrs a with
    | none => findByAttributesStable doc tagSel attrs rest acc
    | some v =>
      let pairs := acc ++ [(a, v)]
      match queryStableSelector doc tagSel pairs with
      | some r => some r
      | none => findByAttributesStable doc tagSel attrs rest pairs

/-- querySelectorAll for the single-attribute selectors of the second loop,
scoped by the raw recorded tag string (the empty string scopes nothing, as in
the source's template interpolation); none models a thrown query. -/
def queryOtherSelector (doc : List RElem) (tagStr : String) (k v : String) :
    Option (List RElem) :=
  if (tagStr == "" || okSelectorName tagStr) && okSelectorName k &&
      okSelectorValue v then
    some (doc.filter
      (fun e => (tagStr == "" || e.tag == tagStr) && e.getAttr k == some v))
  else none

/-- The second loop of findByAttributes: the first non-stable truthy attribute
whose query yields exactly one match. -/
def findByAttributesOther (doc : List RElem) (tagStr : String) :
    List (String × String) → Option RElem
  | [] => none
  | (k, v) :: rest =>
    if !(stableAttrsList.contains k) && v != "" then
      match queryOtherSelector doc tagStr k v with
      | some [m] => some m
      | _ => findByAttributesOther doc tagStr rest
    else findByAttributesOther doc tagStr rest

/-- findByAttributes from uid-generator.js.  A missing recorded tag falls back
to a star head in the first loop and to the literal string rendering of the
undefined tag in the second loop's template. -/
def findByAttributes (doc : List RElem) (attributes : List (String × String))
    (tag : Option String) : Option RElem :=
  let tagSel := match truthyStr tag with | some t => t | none => "*"
  match findByAttributesStable doc tagSel attributes stableAttrsList [] with
  | some r => r
  | none =>
    let tagStr := match tag with | some t => t | none => "undefined"
    findByAttributesOther doc tagStr attributes

/-- findByText from uid-generator.js: tag-scoped elements, first an exact
match on cleaned text, then a substring match in either direction.  Recorded
tags are lower-cased tag names, valid as type selectors. -/
def findByText (doc : List RElem) (text tag : String) : Option RElem :=
  let elements := doc.filter (fun e => e.tag == tag)
  let cleanText := jsCleanText text
  match elements.find? (fun e => jsCleanText e.textContent == cleanText) with
  | some e => some e
  | none =>
    elements.find? (fun e =>
      jsIncludes (jsCleanText e.textContent) cleanText ||
      jsIncludes cleanText (jsCleanText e.textContent))

/-- The DOM environment of one resolution: the document plus the CSS and
XPath engines for the opaque recorded locator strings (none models a thrown
query, some none a query finding nothing). -/
structure ResolveEnv where
  doc : List RElem
  cssQuery : String → Option (Option RElem)
  xpathQuery : String → Option (Option RElem)

/-- Accept a candidate only when the liveness check passes. -/
def tryValid (r : Option RElem) : Option RElem :=
  r.bind (fun e => if isElementValid e then some e else none)

/-- Strategy 1 of getElementByUID: the recorded CSS selector. -/
def strat1 (env : ResolveEnv) (entry : RegistryEntry) : Option RElem :=
  tryValid ((truthyStr entry.selector).bind (fun s => (env.cssQuery s).bind id))

/-- Strategy 2: the recorded XPath. -/
def strat2 (env : ResolveEnv) (entry : RegistryEntry) : Option RElem :=
  tryValid ((truthyStr entry.xpath).bind (fun s => (env.xpathQuery s).bind id))

/-- Strategy 3: the attribute fingerprint. -/
def strat3 (env : ResolveEnv) (entry : RegistryEntry) : Option RElem :=
  match entry.attributes with
  | some attrs => tryValid (findByAttributes env.doc attrs entry.tag)
  | none => none

/-- Strategy 4: text content scoped by the recorded tag. -/
def strat4 (env : ResolveEnv) (entry : RegistryEntry) : Option RElem :=
  match truthyStr entry.text, truthyStr entry.tag with
  | some t, some tg => tryValid (findByText env.doc t tg)
  | _, _ => none

/-- The strategy chain of getElementByUID: each strategy's candidate is
accepted only if live, a failed strategy falls through to the next one, and
null is returned when all four fail. -/
def resolveByStrategies (env : ResolveEnv) (entry : RegistryEntry) :
    Option RElem :=
  match strat1 env entry with
  | some e => some e
  | none =>
    match strat2 env entry with
    | some e => some e
    | none =>
      match strat3 env entry with
      | some e => some e
      | none => strat4 env entry

/-- getElementByUID from uid-generator.js: an unknown uid resolves to null and
leaves the registry unchanged; a known uid has its access count incremented
before the strategies run, whatever their outcome. -/
def getElementByUID (env : ResolveEnv) (reg : Registry) (uid : String) :
    Option RElem × Registry :=
  match registryGet reg uid with
  | none => (none, reg)
  | some entry =>
    (resolveByStrategies env entry,
     registrySet reg uid { entry with accessCount := entry.accessCount + 1 })

/-! Spec-shaped companions for claim C2.  claimResolveC2 follows the claim's
words literally: the strategies contribute a single ordered candidate stream
(CSS, XPath, each prioritized identifying attribute in turn, each other
attribute with a unique match, exact text matches, then substring matches),
every candidate is filtered by the liveness check, and the first accepted
candidate wins. -/

/-- Tag scoping by the recorded tag, as the claim's "scoped to the recorded
tag" reads. -/
def tagScopeOk (entry : RegistryEntry) (e : RElem) : Bool :=
  match truthyStr entry.tag with
  | some t => e.tag == t
  | none => true

/-- The ordered candidate stream prescribed by the claim. -/
def specCandidatesC2 (env : ResolveEnv) (entry : RegistryEntry) : List RElem :=
  (Option.toList
    ((truthyStr entry.selector).bind (fun s => (env.cssQuery s).bind id)))
  ++ (Option.toList
    ((truthyStr entry.xpath).bind (fun s => (env.xpathQuery s).bind id)))
  ++ (match entry.attributes with
      | some attrs =>
        (stableAttrsList.flatMap (fun a =>
          match attrLookupTruthy attrs a with
          | some v => Option.toList
              ((env.doc.filter
                (fun e => tagScopeOk entry e && e.getAttr a == some v)).head?)
          | none => []))
        ++ (attrs.flatMap (fun p =>
          if !(stableAttrsList.contains p.1) && p.2 != "" then
            match env.doc.filter
                (fun e => tagScopeOk entry e && e.getAttr p.1 == some p.2) with
            | [m] => [m]
            | _ => []
          else []))
      | none => [])
  ++ (match truthyStr entry.text, truthyStr entry.tag with
      | some t, some tg =>
        let elements := env.doc.filter (fun e => e.tag == tg)
        let clean := jsCleanText t
        (elements.filter (fun e => jsCleanText e.textContent == clean))
        ++ (elements.filter (fun e =>
              jsIncludes (jsCleanText e.textContent) clean ||
              jsIncludes clean (jsCleanText e.textContent)))
      | _, _ => [])

/-- Resolution as claim C2 states it: the first live candidate of the stream. -/
def claimResolveC2 (env : ResolveEnv) (entry : RegistryEntry) : Option RElem :=
  (specCandidatesC2 env entry).find? isElementValid

/-! Amended spec for C2: one candidate per strategy; a candidate failing the
liveness check falls through to the next strategy, not to the next candidate
of the same strategy; the first present prioritized attribute determines the
whole attribute strategy, even when it matches nothing. -/

/-- The first prioritized attribute present in the fingerprint. -/
def firstPresentStable (attrs : List (String × String)) :
    Option (String × String) :=
  stableAttrsList.findSome? (fun a => (attrLookupTruthy attrs a).map (fun v => (a, v)))

/-- Amended description of the non-prioritized tier: the first attribute with
exactly one tag-scoped match. -/
def firstUniqueOtherAmended (doc : List RElem) (tagSel : String) :
    List (String × String) → Option RElem
  | [] => none
  | (k, v) :: rest =>
    if !(stableAttrsList.contains k) && v != "" then
      match doc.filter (fun e => matchesTagSel e tagSel && e.getAttr k == some v) with
      | [m] => some m
      | _ => firstUniqueOtherAmended doc tagSel rest
    else firstUniqueOtherAmended doc tagSel rest

/-- Amended description of the attribute strategy: the first present
prioritized attribute decides the result (first tag-scoped match or nothing);
only a fingerprint without prioritized attributes reaches the unique-match
tier. -/
def amendedFindByAttributes (doc : List RElem)
    (attrs : List (String × String)) (tag : Option String) : Option RElem :=
  let tagSel := match truthyStr tag with | some t => t | none => "*"
  match firstPresentStable attrs with
  | some (a, v) =>
    (doc.filter (fun e => matchesTagSel e tagSel && e.getAttr a == some v)).head?
  | none => firstUniqueOtherAmended doc tagSel attrs

/-- Amended description of the text strategy: a single candidate - the first
exact cleaned-text match, else the first substring match. -/
def amendedFindByText (doc : List RElem) (t tg : String) : Option RElem :=
  let elements := doc.filter (fun e => e.tag == tg)
  let clean := jsCleanText t
  match (elements.filter (fun e => jsCleanText e.textContent == clean)).head? with
  | some e => some e
  | none =>
    (elements.filter (fun e =>
      jsIncludes (jsCleanText e.textContent) clean ||
      jsIncludes clean (jsCleanText e.textContent))).head?

/-- The per-strategy candidates of the amended description. -/
def amendedStrategyCandidates (env : ResolveEnv) (entry : RegistryEntry) :
    List (Option RElem) :=
  [ (truthyStr entry.selector).bind (fun s => (env.cssQuery s).bind id)
  , (truthyStr entry.xpath).bind (fun s => (env.xpathQuery s).bind id)
  , match entry.attributes with
    | some attrs => amendedFindByAttributes env.doc attrs entry.tag
    | none => none
  , match truthyStr entry.text, truthyStr entry.tag with
    | some t, some tg => amendedFindByText env.doc t tg
    | _, _ => none ]

/-- Resolution as amended: the first strategy whose single candidate passes
the liveness check. -/
def amendedResolveC2 (env : ResolveEnv) (entry : RegistryEntry) :
    Option RElem :=
  (amendedStrategyCandidates env entry).findSome? tryValid

/-- Well-formedness of a captured registry entry: attribute names and values
interpolate into parsable selectors and the recorded tag is a non-empty tag
name (capture always records the lower-cased tag name). -/
def okEntryC2 (entry : RegistryEntry) : Prop :=
  (∀ attrs, entry.attributes = some attrs →
    ∀ p ∈ attrs, okSelectorName p.1 = true ∧ okSelectorValue p.2 = true)
  ∧ (∃ t, entry.tag = some t ∧ t ≠ "" ∧ okSelectorName t = true)

/-! Lemmas relating the resolver to its amended description. -/

theorem attrLookupTruthy_mem {attrs : List (String × String)} {a v : String}
    (h : attrLookupTruthy attrs a = some v) : ∃ p ∈ attrs, p.2 = v := by
  unfold attrLookupTruthy at h
  cases hf : attrs.find? (fun p => p.1 == a) with
  | none => rw [hf] at h; simp [truthyStr] at h
  | some p =>
    rw [hf] at h
    by_cases hv : p.2 == ""
    · simp [truthyStr, hv] at h
    · simp only [truthyStr, Option.map_some', hv, Bool.false_eq_true,
        if_false] at h
      exact ⟨p, List.mem_of_find?_eq_some hf, by injection h⟩

theorem find?_eq_filter_head {α} (p : α → Bool) :
    ∀ l : List α, l.find? p = (l.filter p).head? := by
  intro l
  induction l with
  | nil => rfl
  | cons a rest ih =>
    by_cases ha : p a
    · simp [List.find?_cons, List.filter_cons, ha]
    · simp only [List.find?_cons, List.filter_cons, ha, Bool.false_eq_true,
        if_false, cond_false]
      exact ih

theorem findByAttributesStable_ok (doc : List RElem) (tagSel : String)
    (attrs : List (String × String))
    (htag : (tagSel == "*" || okSelectorName tagSel) = true)
    (hok : ∀ p ∈ attrs, okSelectorValue p.2 = true) :
    ∀ l, findByAttributesStable doc tagSel attrs l [] =
      (l.findSome? (fun a => (attrLookupTruthy attrs a).map (fun v => (a, v)))).map
        (fun av => (doc.filter
          (fun e => matchesTagSel e tagSel && e.getAttr av.1 == some av.2)).head?) := by
  intro l
  induction l with
  | nil => rfl
  | cons a rest ih =>
    cases hl : attrLookupTruthy attrs a with
    | none =>
      simp only [findByAttributesStable, hl, List.findSome?, Option.map_none]
      exact ih
    | some v =>
      have hv : okSelectorValue v = true := by
        obtain ⟨p, hp, hpv⟩ := attrLookupTruthy_mem hl
        exact hpv ▸ hok p hp
      have hq : queryStableSelector doc tagSel ([] ++ [(a, v)]) =
          some ((doc.filter
            (fun e => matchesTagSel e tagSel && matchesAttrPairs e [(a, v)])).head?) := by
        unfold queryStableSelector
        simp [htag, hv]
      simp only [findByAttributesStable, hl, hq, List.findSome?, Option.map_some]
      simp [matchesAttrPairs]

theorem findByAttributesOther_ok (doc : List RElem) (t : String)
    (ht1 : (t == "") = false) (ht2 : (t == "*") = false)
    (htn : okSelectorName t = true) :
    ∀ attrs, (∀ p ∈ attrs, okSelectorName p.1 = true ∧ okSelectorValue p.2 = true) →
    findByAttributesOther doc t attrs = firstUniqueOtherAmended doc t attrs := by
  intro attrs
  induction attrs with
  | nil => intro _; rfl
  | cons p rest ih =>
    intro hok
    obtain ⟨k, v⟩ := p
    have hkv := hok (k, v) (List.mem_cons_self _ _)
    have hrest : ∀ q ∈ rest, okSelectorName q.1 = true ∧ okSelectorValue q.2 = true :=
      fun q hq => hok q (List.mem_cons_of_mem _ hq)
    by_cases hg : (!(stableAttrsList.contains k) && v != "") = true
    · have hq : queryOtherSelector doc t k v =
          some (doc.filter (fun e => (t == "" || e.tag == t) && e.getAttr k == some v)) := by
        unfold queryOtherSelector
        simp [ht1, htn, hkv.1, hkv.2]
      have hpred : (fun (e : RElem) => (t == "" || e.tag == t) && e.getAttr k == some v) =
          (fun (e : RElem) => matchesTagSel e t && e.getAttr k == some v) := by
        funext e
        simp [matchesTagSel, ht1, ht2]
      simp only [findByAttributesOther, firstUniqueOtherAmended, hg, if_true, hq, hpred]
      cases doc.filter (fun e => matchesTagSel e t && e.getAttr k == some v) with
      | nil => exact ih hrest
      | cons m ms =>
        cases ms with
        | nil => rfl
        | cons m2 ms2 => exact ih hrest
    · simp only [findByAttributesOther, firstUniqueOtherAmended, hg, if_false,
        Bool.false_eq_true]
      exact ih hrest

theorem findByAttributes_amended (doc : List RElem)
    (attrs : List (String × String)) (t : String) (htne : t ≠ "")
    (htok : okSelectorName t = true)
    (hok : ∀ p ∈ attrs, okSelectorName p.1 = true ∧ okSelectorValue p.2 = true) :
    findByAttributes doc attrs (some t) = amendedFindByAttributes doc attrs (some t) := by
  have ht1 : (t == "") = false := by
    cases hb : t == "" with
    | true => exact absurd (by simpa using hb) htne
    | false => rfl
  have ht2 : (t == "*") = false := by
    cases hb : t == "*" with
    | true =>
      have : t = "*" := by simpa using hb
      rw [this] at htok
      simp [okSelectorName] at htok
    | false => rfl
  have htruthy : truthyStr (some t) = some t := by simp [truthyStr, ht1]
  have htagok : ((t == "*") || okSelectorName t) = true := by simp [htok]
  unfold findByAttributes amendedFindByAttributes
  simp only [htruthy]
  rw [findByAttributesStable_ok doc t attrs htagok
    (fun p hp => (hok p hp).2) stableAttrsList]
  unfold firstPresentStable
  cases hfp : stableAttrsList.findSome?
      (fun a => (attrLookupTruthy attrs a).map (fun v => (a, v))) with
  | none =>
    show findByAttributesOther doc t attrs = firstUniqueOtherAmended doc t attrs
    exact findByAttributesOther_ok doc t ht1 ht2 htok attrs hok
  | some av =>
    obtain ⟨a, v⟩ := av
    rfl

theorem findByText_amended (doc : List RElem) (tx tg : String) :
    findByText doc tx tg = amendedFindByText doc tx tg := by
  unfold findByText amendedFindByText
  simp only [find?_eq_filter_head]

/-- C2 claim as stated is refutable: the resolver is not the liveness-filtered
head of the claim's candidate stream.  In the counterexample the fingerprint
records an id that no longer matches and a name that does; the claim's stream
offers the name match, while the source's stable-attribute loop returns the
null id-query result outright and resolution fails. -/
def relemY : RElem :=
  { connected := true, display := "block", visibility := "visible"
  , tag := "input", attrs := [("name", "y")], textContent := "" }

def entryC2cex : RegistryEntry :=
  { selector := none, xpath := none
  , attributes := some [("id", "x"), ("name", "y")]
  , text := none, tag := some "input", timestamp := 0, accessCount := 0 }

def envC2cex : ResolveEnv :=
  { doc := [relemY], cssQuery := fun _ => some none
  , xpathQuery := fun _ => some none }

theorem okEntryC2_cex : okEntryC2 entryC2cex := by
  constructor
  · intro attrs ha
    have hattrs : attrs = [("id", "x"), ("name", "y")] := by
      have : (some [("id", "x"), ("name", "y")] : Option (List (String × String)))
          = some attrs := ha
      injection this with h
      exact h.symm
    subst hattrs
    decide
  · exact ⟨"input", rfl, by decide, by decide⟩

theorem findSome4_tryValid (c1 c2 c3 c4 : Option RElem) :
    ([c1, c2, c3, c4].findSome? tryValid) =
      (match tryValid c1 with
       | some e => some e
       | none =>
         match tryValid c2 with
         | some e => some e
         | none =>
           match tryValid c3 with
           | some e => some e
           | none => tryValid c4) := by
  simp only [List.findSome?]
  cases tryValid c1 <;> cases tryValid c2 <;> cases tryValid c3 <;>
    cases tryValid c4 <;> rfl

/-- Claim C2 (corrected): resolution coincides with the amended per-strategy
description - one candidate per strategy, the liveness check applied to that
single candidate, a rejected or empty candidate falling through to the next
strategy, the first present prioritized attribute deciding the whole
attribute strategy, and null when all four strategies fail. -/
theorem resolve_matches_amended_spec (env : ResolveEnv) (entry : RegistryEntry)
    (hok : okEntryC2 entry) :
    resolveByStrategies env entry = amendedResolveC2 env entry := by
  obtain ⟨hattrs, t, htageq, htne, htok⟩ := hok
  have e3 : strat3 env entry =
      tryValid (match entry.attributes with
        | some attrs => amendedFindByAttributes env.doc attrs entry.tag
        | none => none) := by
    unfold strat3
    cases ha : entry.attributes with
    | none => rfl
    | some attrs =>
      rw [htageq]
      show tryValid (findByAttributes env.doc attrs (some t)) =
        tryValid (amendedFindByAttributes env.doc attrs (some t))
      rw [findByAttributes_amended env.doc attrs t htne htok (hattrs attrs ha)]
  have e4 : strat4 env entry =
      tryValid (match truthyStr entry.text, truthyStr entry.tag with
        | some tx, some tg => amendedFindByText env.doc tx tg
        | _, _ => none) := by
    unfold strat4
    cases truthyStr entry.text with
    | none => cases truthyStr entry.tag <;> rfl
    | some tx =>
      cases truthyStr entry.tag with
      | none => rfl
      | some tg =>
        show tryValid (findByText env.doc tx tg) =
          tryValid (amendedFindByText env.doc tx tg)
        rw [findByText_amended]
  unfold resolveByStrategies
  rw [e3, e4]
  exact (findSome4_tryValid
    ((truthyStr entry.selector).bind (fun s => (env.cssQuery s).bind id))
    ((truthyStr entry.xpath).bind (fun s => (env.xpathQuery s).bind id))
    (match entry.attributes with
      | some attrs => amendedFindByAttributes env.doc attrs entry.tag
      | none => none)
    (match truthyStr entry.text, truthyStr entry.tag with
      | some tx, some tg => amendedFindByText env.doc tx tg
      | _, _ => none)).symm

/-- Claim C2 counterexample: the resolver is not the liveness-filtered head of
the claim's ordered candidate stream.  The fingerprint records an id that no
longer matches anything and a name that matches a live element; the claim's
stream offers the name match, but the source's stable-attribute loop returns
the null id-query result outright, so resolution yields null. -/
theorem resolve_order_claim_false :
    ¬ (∀ env entry, okEntryC2 entry →
        resolveByStrategies env entry = claimResolveC2 env entry) := by
  intro h
  have h1 := h envC2cex entryC2cex okEntryC2_cex
  have hL : resolveByStrategies envC2cex entryC2cex = none := by decide
  have hR : claimResolveC2 envC2cex entryC2cex = some relemY := by decide
  rw [hL, hR] at h1
  exact Option.noConfusion h1

theorem resolve_matches_amended_spec_witness :
    okEntryC2 entryC2cex ∧
      resolveByStrategies envC2cex entryC2cex =
        amendedResolveC2 envC2cex entryC2cex :=
  ⟨okEntryC2_cex, resolve_matches_amended_spec envC2cex entryC2cex okEntryC2_cex⟩

/-! Registry bookkeeping lemmas for claim C10. -/

theorem registryAny_of_get {reg : Registry} {uid : String}
    {entry : RegistryEntry} (h : registryGet reg uid = some entry) :
    reg.any (fun p => p.1 == uid) = true := by
  induction reg with
  | nil => simp [registryGet, List.find?] at h
  | cons q rest ih =>
    cases hq : (q.1 == uid) with
    | true => simp [List.any_cons, hq]
    | false =>
      have h' : registryGet rest uid = some entry := by
        unfold registryGet at h ⊢
        simpa [List.find?, hq] using h
      simp [List.any_cons, hq, ih h']

theorem registryGet_set_of_present (reg : Registry) (uid : String)
    (e : RegistryEntry) {entry : RegistryEntry}
    (h : registryGet reg uid = some entry) :
    registryGet (registrySet reg uid e) uid = some e := by
  induction reg with
  | nil => simp [registryGet, List.find?] at h
  | cons q rest ih =>
    cases hq : (q.1 == uid) with
    | true =>
      have hany : (q :: rest).any (fun p => p.1 == uid) = true := by
        simp [List.any_cons, hq]
      unfold registrySet
      rw [if_pos hany]
      unfold registryGet
      simp [List.find?, hq]
    | false =>
      have h' : registryGet rest uid = some entry := by
        unfold registryGet at h ⊢
        simpa [List.find?, hq] using h
      have hanyrest : rest.any (fun p => p.1 == uid) = true := registryAny_of_get h'
      have ihh := ih h'
      unfold registrySet at ihh ⊢
      rw [if_pos (by simp [List.any_cons, hq, hanyrest])]
      rw [if_pos hanyrest] at ihh
      unfold registryGet at ihh ⊢
      simpa [List.find?, hq] using ihh

theorem find?_filter_keep {α} (p keepf : α → Bool) :
    ∀ (l : List α) (x : α), l.find? p = some x → keepf x = true →
      (l.filter keepf).find? p = some x := by
  intro l
  induction l with
  | nil => intro x h _; simp [List.find?] at h
  | cons a rest ih =>
    intro x h hk
    cases ha : p a with
    | true =>
      have hxa : a = x := by
        simp [List.find?, ha] at h
        exact h
      subst hxa
      rw [List.filter_cons, if_pos hk]
      simp [List.find?, ha]
    | false =>
      have h' : rest.find? p = some x := by simpa [List.find?, ha] using h
      rw [List.filter_cons]
      by_cases hka : keepf a = true
      · rw [if_pos hka]
        simpa [List.find?, ha] using ih x h' hk
      · rw [if_neg hka]
        exact ih x h' hk

/-- Claim C10 (corrected): a resolution attempt on a registered uid always
increments that entry's access count, whatever the strategies return; and the
sweep never prunes an entry that has been looked up at least once since its
most recent registration (a non-zero access count), regardless of its age. -/
theorem access_count_increment_and_prune_guard
    (env : ResolveEnv) (reg : Registry) (uid : String)
    (entry : RegistryEntry) (now : Nat)
    (h : registryGet reg uid = some entry) :
    registryGet (getElementByUID env reg uid).2 uid =
        some { entry with accessCount := entry.accessCount + 1 }
      ∧ (entry.accessCount ≠ 0 →
          registryGet (cleanupRegistry reg now) uid = some entry) := by
  constructor
  · unfold getElementByUID
    rw [h]
    exact registryGet_set_of_present reg uid _ h
  · intro h0
    unfold registryGet at h ⊢
    unfold cleanupRegistry
    cases hf : reg.find? (fun p => p.1 == uid) with
    | none => rw [hf] at h; simp at h
    | some q =>
      rw [hf] at h
      simp only [Option.map_some'] at h
      have hqe : q.2 = entry := by injection h
      have hb : (entry.accessCount == 0) = false := by
        cases hacc : entry.accessCount == 0 with
        | false => rfl
        | true => exact absurd (by rwa [beq_iff_eq] at hacc) h0
      have hkeep : (!(decide (now - q.2.timestamp > registryMaxAge) &&
          q.2.accessCount == 0)) = true := by
        rw [hqe, hb]
        simp
      rw [find?_filter_keep _ _ reg q hf hkeep]
      simp [hqe]

/-- The empty locator payload used by the C10 trace. -/
def locEmpty : Locators :=
  { selector := none, xpath := none, attributes := none, text := none
  , tag := none }

/-- Claim C10 counterexample: a capture re-registers the uid and resets its
access count to zero, so the sweep can prune an entry whose uid was looked up
earlier.  The trace registers "u", looks it up once (the access count becomes
one, first conjunct), re-registers it - as every later capture of the element
does - and the sweep then deletes it once the TTL has passed (second
conjunct), refuting "never prunes an entry whose uid has been looked up at
least once". -/
theorem registry_prune_after_reregistration :
    (registryGet (getElementByUID envC2cex (registerUID [] "u" locEmpty 0) "u").2
        "u").map (fun e => e.accessCount) = some 1
    ∧ cleanupRegistry
        (registerUID (getElementByUID envC2cex (registerUID [] "u" locEmpty 0) "u").2
          "u" locEmpty 1000)
        (1000 + registryMaxAge + 1) = [] :=
  ⟨by decide, by decide⟩

/-- A registered entry with a positive access count, for the C10 witness. -/
def entryC10w : RegistryEntry :=
  { selector := none, xpath := none, attributes := none, text := none
  , tag := none, timestamp := 0, accessCount := 5 }

def regC10w : Registry := [("u", entryC10w)]

theorem access_count_increment_and_prune_guard_witness :
    registryGet regC10w "u" = some entryC10w
    ∧ (registryGet (getElementByUID envC2cex regC10w "u").2 "u" =
        some { entryC10w with accessCount := entryC10w.accessCount + 1 }
      ∧ (entryC10w.accessCount ≠ 0 →
          registryGet (cleanupRegistry regC10w 9999999) "u" = some entryC10w)) :=
  ⟨by decide,
   access_count_increment_and_prune_guard envC2cex regC10w "u" entryC10w
     9999999 (by decide)⟩

/-! Embedding of dom-extractor.js: visibility and actionability filtering,
text extraction, uid generation and capture.  An element is modelled as a tree
node carrying its computed style, bounding rectangle and identifying
attributes, together with the flat list of its ancestors (nearest first) that
the upward loops walk.  The candidate-collection phase (selector catalog,
shadow-root and iframe traversal, listener registry) is modelled as the
candidate list handed to capture in traversal order; the structural path of
getElementPath is carried as the recorded path string. -/

structure Style where
  display : String
  visibility : String
  opacity : String
  pointerEvents : String
  overflowY : String
  overflow : String
deriving Repr, DecidableEq

structure Rect where
  top : Int
  left : Int
  width : Int
  height : Int
deriving Repr, DecidableEq

def Rect.right (r : Rect) : Int := r.left + r.width

def Rect.bottom (r : Rect) : Int := r.top + r.height

structure AncestorInfo where
  style : Style
  rect : Rect
  scrollHeight : Int
  clientHeight : Int
  isBody : Bool
  isDocumentElement : Bool
deriving Repr, DecidableEq

structure ElemInfo where
  style : Style
  rect : Rect
  ancestors : List AncestorInfo
  disabled : Bool
  ariaDisabled : Option String
  ariaHidden : Option String
  roleAttr : Option String
  hasHref : Bool
  hasOnClick : Bool
  tabIndex : Int
  dataTestid : Option String
  dataTestId2 : Option String
  dataTest : Option String
  idAttr : String
  nameProp : String
  tagName : String
  typeProp : String
  placeholderAttr : Option String
  ariaLabelAttr : Option String
  ariaLabelledByAttr : Option String
  className : String
  valueProp : String
  textContent : String
  altProp : String
  titleProp : String
  pathString : String
deriving Repr, DecidableEq

/-- A DOM element with its direct children (the only descendants the
zero-size fallback of isElementVisible inspects are the direct children, but
the tree shape lets the claims speak about deeper descendants). -/
inductive DomNode where
  | node (info : ElemInfo) (children : List DomNode)
deriving Repr

def DomNode.info : DomNode → ElemInfo
  | .node i _ => i

def DomNode.children : DomNode → List DomNode
  | .node _ cs => cs

/-- JS a || b on plain strings (empty is falsy). -/
def jsOrRaw (a b : String) : String := if a == "" then b else a

/-- findScrollableAncestor from dom-extractor.js: the nearest of the first 6
ancestors whose overflow declares auto/scroll/overlay and which actually
overflows. -/
def findScrollableAncestor (ancs : List AncestorInfo) : Option AncestorInfo :=
  (ancs.take 6).find? (fun a =>
    let ov := jsOrRaw a.style.overflowY a.style.overflow
    (jsIncludes ov "auto" || jsIncludes ov "scroll" || jsIncludes ov "overlay")
      && decide (a.scrollHeight > a.clientHeight + 1))

/-- isElementVisible from dom-extractor.js: own style, zero-size fallback to
visibly-sized direct children, hidden ancestors within depth 4, and the
nearest scrollable container's visible rectangle. -/
def isElementVisible (n : DomNode) : Bool :=
  let e := n.info
  if e.style.display == "none" || e.style.visibility == "hidden" ||
      e.style.opacity == "0" then false
  else
    let rect := e.rect
    let hasVisibleChild := n.children.any (fun c =>
      let cs := c.info.style
      if cs.display == "none" || cs.visibility == "hidden" then false
      else decide (c.info.rect.width > 1) && decide (c.info.rect.height > 1))
    if (rect.width == 0 || rect.height == 0) && !hasVisibleChild then false
    else if (e.ancestors.take 4).any (fun a =>
        a.style.display == "none" || a.style.visibility == "hidden" ||
        a.style.opacity == "0") then false
    else
      match findScrollableAncestor e.ancestors with
      | some scroller =>
        if scroller.isBody || scroller.isDocumentElement then true
        else
          let srect := scroller.rect
          if decide (rect.right > srect.left) && decide (rect.left < srect.right)
              && decide (rect.bottom > srect.top) && decide (rect.top < srect.bottom)
          then true else false
      | none => true

/-- isActionableElement from dom-extractor.js. -/
def isActionableElement (n : DomNode) : Bool :=
  if !isElementVisible n then false
  else
    let e := n.info
    if e.style.pointerEvents == "none" then false
    else if e.disabled ||
        ((match e.ariaDisabled with | some s => s | none => "") == "true") then
      false
    else
      let ariaHidden := jsToLower (match e.ariaHidden with | some s => s | none => "")
      let role := jsToLower (match e.roleAttr with | some s => s | none => "")
      let focusable := decide (e.tabIndex ≥ 0)
      if ariaHidden == "true" && !e.hasHref && !e.hasOnClick && !focusable &&
          role == "" then false
      else true

/-- getElementText from dom-extractor.js: value, bracketed placeholder, text
content, alt, title - first truthy wins - trimmed, whitespace-collapsed and
capped at 100 characters. -/
def getElementText (e : ElemInfo) : String :=
  let placeholderStr := match e.placeholderAttr with | some p => p | none => ""
  let text :=
    if e.valueProp != "" then e.valueProp
    else if placeholderStr != "" then "[" ++ placeholderStr ++ "]"
    else if e.textContent != "" then e.textContent
    else if e.altProp != "" then e.altProp
    else e.titleProp
  let t := jsCollapseWs (jsTrim text)
  if decide (t.length > 100) then String.mk (t.data.take 97) ++ "..." else t

/-- sanitizeToken from dom-extractor.js: non-token characters become
underscores, capped at 80 characters. -/
def sanitizeTokenChar (c : Char) : Char :=
  if c.isAlphanum || c == '_' || c == ':' || c == '-' || c == '.' then c else '_'

def sanitizeToken (s : String) : String :=
  String.mk ((s.data.map sanitizeTokenChar).take 80)

/-- JS split(/\s+/) : split on maximal whitespace runs, with empty boundary
tokens as the regex split produces. -/
def splitOnSpaceGo : List Char → List Char → List String
  | [], cur => [String.mk cur.reverse]
  | c :: rest, cur =>
    if c == ' ' then String.mk cur.reverse :: splitOnSpaceGo rest []
    else splitOnSpaceGo rest (c :: cur)

def jsSplitWs (s : String) : List String :=
  splitOnSpaceGo (jsCollapseWs s).data []

/-- JS Array.join. -/
def joinWith (sep : String) : List String → String
  | [] => ""
  | [x] => x
  | x :: rest => x ++ sep ++ joinWith sep rest

/-- generateUID from dom-extractor.js: testing hooks first, then id, then
name, else a content-fingerprint hash disambiguated by the traversal
ordinal. -/
def generateUID (e : ElemInfo) (index : Nat) : String :=
  match jsOrStr e.dataTestid (jsOrStr e.dataTestId2 e.dataTest) with
  | some tid => "elem_test_" ++ sanitizeToken tid
  | none =>
    if e.idAttr != "" then "elem_id_" ++ sanitizeToken e.idAttr
    else if e.nameProp != "" then "elem_name_" ++ sanitizeToken e.nameProp
    else
      let tag := jsToLower e.tagName
      let role := match e.roleAttr with | some r => r | none => ""
      let placeholder := e.placeholderAttr
      let ariaLabel := jsOrStr e.ariaLabelAttr e.ariaLabelledByAttr
      let cls := joinWith "." ((jsSplitWs e.className).take 3)
      let text := String.mk ((getElementText e).data.take 40)
      let parts : List (Option String) :=
        [some tag, some role, some e.typeProp, placeholder, ariaLabel,
         some cls, some text, some e.pathString]
      let fingerprint := joinWith "|"
        ((parts.filterMap id).filter (fun s => s != ""))
      "elem_" ++ simpleHash fingerprint ++ "_" ++ Nat.repr index

/-- The serialized element record (the fields the claims consult; the other
serialized fields - bounds, state, locators - do not bear on the claims).
Serialization also registers the uid's locators in the registry. -/
structure SerElem where
  uid : String
  tag : String
  text : String
deriving Repr, DecidableEq

def serializeElement (n : DomNode) (index : Nat) : SerElem :=
  { uid := generateUID n.info index
  , tag := jsToLower n.info.tagName
  , text := getElementText n.info }

/-- getInteractiveElements: the candidate catalog and nested-scope traversal
are modelled as the supplied candidate list in traversal order; the function
keeps those passing the actionability filter. -/
def getInteractiveElements (candidates : List DomNode) : List DomNode :=
  candidates.filter isActionableElement

/-- The indexed map of captureDOM over the filtered list (serialization never
returns null in the model, as the null filter only strips exceptions). -/
def serializeAll : Nat → List DomNode → List SerElem
  | _, [] => []
  | i, n :: rest => serializeElement n i :: serializeAll (i + 1) rest

structure Snapshot where
  elements : List SerElem
  elementCount : Nat
deriving Repr, DecidableEq

/-- captureDOM from dom-extractor.js (url, title, timestamp and viewport are
environment readings that no claim consults). -/
def captureDOM (candidates : List DomNode) : Snapshot :=
  let serialized := serializeAll 0 (getInteractiveElements candidates)
  { elements := serialized, elementCount := serialized.length }

/-! Claim C1: uid uniqueness within one snapshot. -/

/-- The uid branches that do not append the traversal ordinal are the testing
hook, id and name branches; this predicate singles out elements taking the
fingerprint branch. -/
def usesFingerprintUID (e : ElemInfo) : Bool :=
  (jsOrStr e.dataTestid (jsOrStr e.dataTestId2 e.dataTest)).isNone &&
    e.idAttr == "" && e.nameProp == ""

/-- The content fingerprint hashed by the uid's fallback branch. -/
def fingerprintOf (e : ElemInfo) : String :=
  let tag := jsToLower e.tagName
  let role := match e.roleAttr with | some r => r | none => ""
  let placeholder := e.placeholderAttr
  let ariaLabel := jsOrStr e.ariaLabelAttr e.ariaLabelledByAttr
  let cls := joinWith "." ((jsSplitWs e.className).take 3)
  let text := String.mk ((getElementText e).data.take 40)
  let parts : List (Option String) :=
    [some tag, some role, some e.typeProp, placeholder, ariaLabel,
     some cls, some text, some e.pathString]
  joinWith "|" ((parts.filterMap id).filter (fun s => s != ""))

theorem base36DigitChar_ne {m : Nat} (hm : m < 36) : base36DigitChar m ≠ '_' := by
  interval_cases m <;> decide

theorem toBase36Go_no_underscore (fuel : Nat) : ∀ (n : Nat) (acc : List Char),
    (∀ c ∈ acc, c ≠ '_') → ∀ c ∈ toBase36Go fuel n acc, c ≠ '_' := by
  induction fuel with
  | zero => intro n acc hacc c hc; exact hacc c hc
  | succ fuel ih =>
    intro n acc hacc c hc
    have hd : base36DigitChar (n % 36) ≠ '_' :=
      base36DigitChar_ne (Nat.mod_lt _ (by omega))
    simp only [toBase36Go] at hc
    by_cases h0 : n / 36 = 0
    · rw [if_pos h0] at hc
      rcases List.mem_cons.mp hc with rfl | hc
      · exact hd
      · exact hacc c hc
    · rw [if_neg h0] at hc
      refine ih (n / 36) (base36DigitChar (n % 36) :: acc) ?_ c hc
      intro x hx
      rcases List.mem_cons.mp hx with rfl | hx
      · exact hd
      · exact hacc x hx

theorem simpleHash_no_underscore (s : String) :
    ∀ c ∈ (simpleHash s).data, c ≠ '_' :=
  toBase36Go_no_underscore _ _ [] (by simp)

theorem generateUID_fingerprint (e : ElemInfo) (i : Nat)
    (h : usesFingerprintUID e = true) :
    generateUID e i =
      "elem_" ++ simpleHash (fingerprintOf e) ++ "_" ++ Nat.repr i := by
  have h' := h
  unfold usesFingerprintUID at h'
  simp only [Bool.and_eq_true] at h'
  obtain ⟨⟨h1, h2⟩, h3⟩ := h'
  have hnone : jsOrStr e.dataTestid (jsOrStr e.dataTestId2 e.dataTest) = none :=
    Option.isNone_iff_eq_none.mp h1
  have hid : (e.idAttr != "") = false := by simp [bne, h2]
  have hname : (e.nameProp != "") = false := by simp [bne, h3]
  unfold generateUID fingerprintOf
  rw [hnone]
  simp only [hid, hname, Bool.false_eq_true, if_false]

theorem uid_index_inj {h1 h2 : String} {i j : Nat}
    (heq : "elem_" ++ h1 ++ "_" ++ Nat.repr i =
      "elem_" ++ h2 ++ "_" ++ Nat.repr j) : i = j := by
  have hd := congrArg String.data heq
  have hsplit : ∀ (hs : String) (n : Nat),
      ("elem_" ++ hs ++ "_" ++ Nat.repr n).data =
        ("elem_".data ++ hs.data) ++ '_' :: (Nat.repr n).data := by
    intro hs n
    show ("elem_".data ++ hs.data ++ "_".data ++ (Nat.repr n).data) = _
    simp
  rw [hsplit h1 i, hsplit h2 j] at hd
  have e1 := lastSegment_append ("elem_".data ++ h1.data) (Nat.repr i).data
    (repr_no_underscore i)
  have e2 := lastSegment_append ("elem_".data ++ h2.data) (Nat.repr j).data
    (repr_no_underscore j)
  have hrepr : (Nat.repr i).data = (Nat.repr j).data := by
    rw [← e1, ← e2, hd]
  have pi := decParse_repr i
  rw [hrepr, decParse_repr j] at pi
  omega

theorem mem_serializeAll_uid : ∀ (l : List DomNode) (j : Nat) (u : String),
    u ∈ (serializeAll j l).map (fun s => s.uid) →
    ∃ k n, j ≤ k ∧ n ∈ l ∧ u = generateUID n.info k := by
  intro l
  induction l with
  | nil => intro j u h; simp [serializeAll] at h
  | cons n rest ih =>
    intro j u h
    simp only [serializeAll, List.map_cons, List.mem_cons] at h
    rcases h with h | h
    · exact ⟨j, n, Nat.le_refl j, List.mem_cons_self n rest, h⟩
    · obtain ⟨k, n', hk, hn', hu⟩ := ih (j + 1) u h
      exact ⟨k, n', by omega, List.mem_cons_of_mem _ hn', hu⟩

theorem serializeAll_uids_pairwise (l : List DomNode)
    (h : ∀ n ∈ l, usesFingerprintUID n.info = true) :
    ∀ j, ((serializeAll j l).map (fun s => s.uid)).Pairwise
      (fun a b => a ≠ b) := by
  induction l with
  | nil => intro j; simp [serializeAll]
  | cons n rest ih =>
    intro j
    simp only [serializeAll, List.map_cons]
    refine List.Pairwise.cons ?_
      (ih (fun m hm => h m (List.mem_cons_of_mem _ hm)) (j + 1))
    intro u hu hequ
    obtain ⟨k, n', hk, hn', hu'⟩ := mem_serializeAll_uid rest (j + 1) u hu
    have hg1 := generateUID_fingerprint n.info j (h n (List.mem_cons_self n rest))
    have hg2 := generateUID_fingerprint n'.info k
      (h n' (List.mem_cons_of_mem _ hn'))
    have hglue : generateUID n.info j = generateUID n'.info k := by
      rw [hu'] at hequ
      exact hequ
    rw [hg1, hg2] at hglue
    have := uid_index_inj hglue
    omega

/-- Claim C1 (corrected): within one capture, uids of the records produced by
elements taking the fingerprint branch (no testing hook, no id, no name) are
pairwise distinct, thanks to the appended traversal ordinal. -/
theorem uids_nodup_of_fingerprint_branch (candidates : List DomNode)
    (h : ∀ n ∈ candidates, usesFingerprintUID n.info = true) :
    ((captureDOM candidates).elements.map (fun s => s.uid)).Pairwise
      (fun a b => a ≠ b) :=
  serializeAll_uids_pairwise (getInteractiveElements candidates)
    (fun n hn => h n (List.mem_of_mem_filter hn)) 0

/-- Shared concrete building blocks for extractor counterexamples. -/
def visibleStyle : Style :=
  { display := "block", visibility := "visible", opacity := "1"
  , pointerEvents := "auto", overflowY := "visible", overflow := "visible" }

def rect10 : Rect := { top := 0, left := 0, width := 10, height := 10 }

def zeroRect : Rect := { top := 0, left := 0, width := 0, height := 0 }

def baseInfo : ElemInfo :=
  { style := visibleStyle, rect := rect10, ancestors := [], disabled := false
  , ariaDisabled := none, ariaHidden := none, roleAttr := none
  , hasHref := false, hasOnClick := false, tabIndex := 0, dataTestid := none
  , dataTestId2 := none, dataTest := none, idAttr := "", nameProp := ""
  , tagName := "DIV", typeProp := "", placeholderAttr := none
  , ariaLabelAttr := none, ariaLabelledByAttr := none, className := ""
  , valueProp := "", textContent := "", altProp := "", titleProp := ""
  , pathString := "" }

def inputNamed (nm : String) : DomNode :=
  .node { baseInfo with tagName := "INPUT", typeProp := "text", nameProp := nm } []

def plainDivNode : DomNode := .node baseInfo []

/-- Claim C1 counterexample: two actionable form controls sharing a name - a
perfectly ordinary radio or input pair - both get the uid built from the
sanitized name token, which carries no traversal ordinal, so one snapshot
holds two records with the same uid. -/
theorem uid_collision_two_name_inputs :
    ¬ (∀ candidates : List DomNode,
        ((captureDOM candidates).elements.map (fun s => s.uid)).Pairwise
          (fun a b => a ≠ b)) := by
  intro h
  have h2 := h [inputNamed "option", inputNamed "option"]
  have hc : ((captureDOM [inputNamed "option", inputNamed "option"]).elements.map
      (fun s => s.uid)) = ["elem_name_option", "elem_name_option"] := by decide
  rw [hc] at h2
  rcases h2 with _ | ⟨hhead, _⟩
  exact hhead _ (List.mem_cons_self _ _) rfl

theorem uids_nodup_of_fingerprint_branch_witness :
    (∀ n ∈ [plainDivNode], usesFingerprintUID n.info = true) ∧
      ((captureDOM [plainDivNode]).elements.map (fun s => s.uid)).Pairwise
        (fun a b => a ≠ b) :=
  ⟨by decide, uids_nodup_of_fingerprint_branch [plainDivNode] (by decide)⟩

/-! Claim C7: display none exclusion and the zero-size fallback. -/

/-- A node that is itself visibly sized (not display/visibility hidden, both
dimensions above one pixel), as the claim's "visibly-sized" reads. -/
def isVisiblySized (n : DomNode) : Bool :=
  let s := n.info.style
  !(s.display == "none" || s.visibility == "hidden") &&
    decide (n.info.rect.width > 1) && decide (n.info.rect.height > 1)

mutual

/-- The claim's "has a visibly-sized descendant": some node strictly below
this one is visibly sized. -/
def hasVisiblySizedDescendant : DomNode → Bool
  | .node _ cs => anyVisiblySizedBelow cs

def anyVisiblySizedBelow : List DomNode → Bool
  | [] => false
  | c :: rest =>
    isVisiblySized c || hasVisiblySizedDescendant c || anyVisiblySizedBelow rest

end

/-- The direct-children test the source actually performs in the zero-size
fallback. -/
def hasQualifyingDirectChild (n : DomNode) : Bool :=
  n.children.any (fun c =>
    let cs := c.info.style
    if cs.display == "none" || cs.visibility == "hidden" then false
    else decide (c.info.rect.width > 1) && decide (c.info.rect.height > 1))

/-- Every actionability condition other than the element's own rendered
size: own styles, hidden ancestors within depth 4, the scroll container's
visible rectangle, pointer events, disabled state and aria hiding. -/
def passesNonSizeChecks (n : DomNode) : Bool :=
  let e := n.info
  !(e.style.display == "none" || e.style.visibility == "hidden" ||
      e.style.opacity == "0")
  && !((e.ancestors.take 4).any (fun a =>
      a.style.display == "none" || a.style.visibility == "hidden" ||
      a.style.opacity == "0"))
  && (match findScrollableAncestor e.ancestors with
      | some scroller =>
        scroller.isBody || scroller.isDocumentElement ||
          (decide (e.rect.right > scroller.rect.left) &&
           decide (e.rect.left < scroller.rect.right) &&
           decide (e.rect.bottom > scroller.rect.top) &&
           decide (e.rect.top < scroller.rect.bottom))
      | none => true)
  && !(e.style.pointerEvents == "none")
  && !(e.disabled ||
      ((match e.ariaDisabled with | some s => s | none => "") == "true"))
  && !(jsToLower (match e.ariaHidden with | some s => s | none => "") == "true"
      && !e.hasHref && !e.hasOnClick && !(decide (e.tabIndex ≥ 0))
      && jsToLower (match e.roleAttr with | some s => s | none => "") == "")

theorem visible_of_actionable {n : DomNode}
    (h : isActionableElement n = true) : isElementVisible n = true := by
  unfold isActionableElement at h
  cases hv : isElementVisible n with
  | true => rfl
  | false => rw [hv] at h; simp at h

theorem display_ne_none_of_visible {n : DomNode}
    (h : isElementVisible n = true) : n.info.style.display ≠ "none" := by
  intro hd
  unfold isElementVisible at h
  simp [hd] at h

theorem actionable_of_parts (n : DomNode)
    (h : passesNonSizeChecks n = true)
    (hchild : hasQualifyingDirectChild n = true) :
    isActionableElement n = true := by
  unfold passesNonSizeChecks at h
  simp only [Bool.and_eq_true, Bool.not_eq_true'] at h
  obtain ⟨⟨⟨⟨⟨h1, h2⟩, h3⟩, h4⟩, h5⟩, h6⟩ := h
  unfold hasQualifyingDirectChild at hchild
  have hvis : isElementVisible n = true := by
    unfold isElementVisible
    simp only [h1, Bool.false_eq_true, if_false, hchild, Bool.not_true,
      Bool.and_false, h2]
    cases hs : findScrollableAncestor n.info.ancestors with
    | none => rfl
    | some scroller =>
      rw [hs] at h3
      by_cases hb : (scroller.isBody || scroller.isDocumentElement) = true
      · simp [hb]
      · have hb' : (scroller.isBody || scroller.isDocumentElement) = false := by
          revert hb; cases scroller.isBody || scroller.isDocumentElement <;> simp
        simp only [hb', Bool.false_or] at h3
        simp [hb', h3]
  unfold isActionableElement
  simp only [hvis, Bool.not_true, Bool.false_eq_true, if_false, h4, h5, h6]

theorem mem_serializeAll_of_mem : ∀ (l : List DomNode) (j : Nat) (n : DomNode),
    n ∈ l → ∃ k, serializeElement n k ∈ serializeAll j l := by
  intro l
  induction l with
  | nil => intro j n h; simp at h
  | cons m rest ih =>
    intro j n h
    rcases List.mem_cons.mp h with rfl | h
    · exact ⟨j, List.mem_cons_self _ _⟩
    · obtain ⟨k, hk⟩ := ih (j + 1) n h
      exact ⟨k, List.mem_cons_of_mem _ hk⟩

/-- Claim C7 (corrected): an element whose own computed display is none never
survives the filter into a snapshot; and a zero-size element satisfying every
other actionability condition appears in the snapshot provided it has a
qualifying DIRECT child (not merely some descendant): a child that is itself
not display/visibility-hidden and strictly larger than one pixel in both
dimensions. -/
theorem display_none_excluded_and_child_sized_included :
    (∀ (cands : List DomNode) (n : DomNode), n.info.style.display = "none" →
      n ∉ getInteractiveElements cands)
    ∧ (∀ (cands : List DomNode) (n : DomNode), n ∈ cands →
        passesNonSizeChecks n = true →
        (n.info.rect.width = 0 ∨ n.info.rect.height = 0) →
        hasQualifyingDirectChild n = true →
        ∃ k, serializeElement n k ∈ (captureDOM cands).elements) := by
  constructor
  · intro cands n hd hmem
    have hact : isActionableElement n = true :=
      List.of_mem_filter hmem
    exact display_ne_none_of_visible (visible_of_actionable hact) hd
  · intro cands n hmem hparts _hzero hchild
    have hact : isActionableElement n = true := actionable_of_parts n hparts hchild
    have hmemf : n ∈ getInteractiveElements cands :=
      List.mem_filter.mpr ⟨hmem, hact⟩
    exact mem_serializeAll_of_mem (getInteractiveElements cands) 0 n hmemf

/-- Concrete tree for the C7 counterexample: a zero-size element whose only
visibly-sized descendant is a grandchild; the source inspects direct children
only, so the element is filtered out although the claim promises it
appears. -/
def grandChildNode : DomNode := .node baseInfo []

def zeroChildNode : DomNode :=
  .node { baseInfo with rect := zeroRect } [grandChildNode]

def zeroSizeParent : DomNode :=
  .node { baseInfo with rect := zeroRect } [zeroChildNode]

/-- Claim C7 counterexample: the zero-size element has a visibly-sized
descendant (the grandchild) yet fails the actionability filter and yields an
empty snapshot, because the fallback looks at direct children only. -/
theorem visibility_descendant_claim_false :
    ¬ (∀ n : DomNode,
        (n.info.rect.width = 0 ∨ n.info.rect.height = 0) →
        hasVisiblySizedDescendant n = true →
        isActionableElement n = true) := by
  intro h
  have := h zeroSizeParent (by decide) (by decide)
  exact absurd this (by decide)

/-- A zero-size element with a qualifying direct child, and a display-none
element, to exercise both halves of the amended C7 statement. -/
def zeroParentGoodChild : DomNode :=
  .node { baseInfo with rect := zeroRect } [grandChildNode]

def hiddenNode : DomNode :=
  .node { baseInfo with style := { visibleStyle with display := "none" } } []

theorem display_none_excluded_and_child_sized_included_witness :
    (hiddenNode.info.style.display = "none"
      ∧ hiddenNode ∉ getInteractiveElements [hiddenNode])
    ∧ (passesNonSizeChecks zeroParentGoodChild = true
      ∧ (zeroParentGoodChild.info.rect.width = 0 ∨
          zeroParentGoodChild.info.rect.height = 0)
      ∧ hasQualifyingDirectChild zeroParentGoodChild = true
      ∧ ∃ k, serializeElement zeroParentGoodChild k ∈
          (captureDOM [zeroParentGoodChild]).elements) :=
  ⟨⟨by decide,
    display_none_excluded_and_child_sized_included.1 [hiddenNode] hiddenNode
      (by decide)⟩,
   ⟨by decide, by decide, by decide,
    display_none_excluded_and_child_sized_included.2 [zeroParentGoodChild]
      zeroParentGoodChild (List.mem_cons_self _ _) (by decide) (by decide)
      (by decide)⟩⟩

/-! Embedding of content-script.js action helpers. -/

structure SelectOpt where
  value : String
  text : String
deriving Repr, DecidableEq

/-- selectOption from content-script.js: the requested value is trimmed; one
pass accepts the first option matching by exact value OR exact trimmed text;
only if that pass found nothing (and the request is non-empty) does a second
pass accept the first case-insensitive substring match on the option text.
When an option is found the source also assigns the select's value and
dispatches one input and one change event. -/
def selectOption (options : List SelectOpt) (valueOrText : String) :
    Option SelectOpt :=
  let v := jsTrim valueOrText
  match options.find? (fun o => o.value == v || jsTrim o.text == v) with
  | some o => some o
  | none =>
    if v != "" then
      options.find? (fun o => jsIncludes (jsToLower o.text) (jsToLower v))
    else none

/-- The three successive tiers claim C6 states: exact value first, then exact
trimmed text, then case-insensitive substring. -/
def claimSelectSpecC6 (options : List SelectOpt) (valueOrText : String) :
    Option SelectOpt :=
  let v := jsTrim valueOrText
  match options.find? (fun o => o.value == v) with
  | some o => some o
  | none =>
    match options.find? (fun o => jsTrim o.text == v) with
    | some o => some o
    | none =>
      if v != "" then
        options.find? (fun o => jsIncludes (jsToLower o.text) (jsToLower v))
      else none

/-- The amended description: the exact-value and exact-text tiers are merged
into one pass over the options (first option matching either wins), followed
by the substring tier. -/
def amendedSelectSpecC6 (options : List SelectOpt) (valueOrText : String) :
    Option SelectOpt :=
  let v := jsTrim valueOrText
  match options.find? (fun o => o.value == v || jsTrim o.text == v) with
  | some o => some o
  | none =>
    if v != "" then
      options.find? (fun o => jsIncludes (jsToLower o.text) (jsToLower v))
    else none

/-- Claim C6 counterexample: with options (value a, text B) and (value B,
text x), selecting B under strict tiers would match the second option by
exact value, but the source's merged pass returns the first option by exact
text, so the claimed three-tier order is refuted. -/
theorem select_option_tiers_claim_false :
    ¬ (∀ (options : List SelectOpt) (v : String),
        selectOption options v = claimSelectSpecC6 options v) := by
  intro h
  have hinst := h [⟨"a", "B"⟩, ⟨"B", "x"⟩] "B"
  have hL : selectOption [⟨"a", "B"⟩, ⟨"B", "x"⟩] "B" = some ⟨"a", "B"⟩ := by
    decide
  have hR : claimSelectSpecC6 [⟨"a", "B"⟩, ⟨"B", "x"⟩] "B" = some ⟨"B", "x"⟩ := by
    decide
  rw [hL, hR] at hinst
  exact absurd hinst (by decide)

/-- Claim C6 (corrected): matching proceeds as one merged exact pass (value
or trimmed text) followed by the case-insensitive substring pass; the claim's
concrete example still holds - selecting NY among (ny, New York) and
(ny2, NY) picks the exact-text option, not a value or substring match. -/
theorem select_option_merged_tiers :
    (∀ (options : List SelectOpt) (v : String),
      selectOption options v = amendedSelectSpecC6 options v)
    ∧ selectOption [⟨"ny", "New York"⟩, ⟨"ny2", "NY"⟩] "NY" =
        some ⟨"ny2", "NY"⟩ :=
  ⟨fun _ _ => rfl, by decide⟩

/-! Claim C8: the type action on a native input. -/

inductive DispatchedEvent where
  | input
  | change
deriving Repr, DecidableEq

structure InputElem where
  tag : String
  value : String
deriving Repr, DecidableEq

structure SetValueResult where
  elem : InputElem
  events : List DispatchedEvent
  usedPrototypeSetter : Bool
  ok : Bool
deriving Repr, DecidableEq

/-- setValueReactSafe from content-script.js, reached by the type action's
first strategy (typeIntoElement branch 1) for input/textarea/select targets:
the value is assigned through the matching element prototype's value setter
when the environment exposes its descriptor (the prototype setter assigns
silently), else by direct assignment; afterwards exactly one input and one
change event are dispatched.  protoAvailable models whether the prototype
descriptor with a setter exists. -/
def setValueReactSafe (protoAvailable : Bool) (el : InputElem)
    (value : String) : SetValueResult :=
  let tag := jsToLower el.tag
  let isNative := tag == "input" || tag == "textarea" || tag == "select"
  { elem := { el with value := value }
  , events := [DispatchedEvent.input, DispatchedEvent.change]
  , usedPrototypeSetter := isNative && protoAvailable
  , ok := true }

/-- Claim C8 (confirmed): typing hello into a plain text input through the
bypass-aware assignment leaves value hello, assigns through the prototype
value setter, and dispatches exactly one input and one change notification. -/
theorem type_sets_value_and_dispatches_once (el : InputElem)
    (h : jsToLower el.tag = "input") :
    (setValueReactSafe true el "hello").elem.value = "hello"
    ∧ (setValueReactSafe true el "hello").events =
        [DispatchedEvent.input, DispatchedEvent.change]
    ∧ (setValueReactSafe true el "hello").usedPrototypeSetter = true
    ∧ (setValueReactSafe true el "hello").ok = true := by
  refine ⟨rfl, rfl, ?_, rfl⟩
  unfold setValueReactSafe
  simp [h]

theorem type_sets_value_and_dispatches_once_witness :
    jsToLower (InputElem.mk "INPUT" "").tag = "input"
    ∧ ((setValueReactSafe true (InputElem.mk "INPUT" "") "hello").elem.value = "hello"
      ∧ (setValueReactSafe true (InputElem.mk "INPUT" "") "hello").events =
          [DispatchedEvent.input, DispatchedEvent.change]
      ∧ (setValueReactSafe true (InputElem.mk "INPUT" "") "hello").usedPrototypeSetter = true
      ∧ (setValueReactSafe true (InputElem.mk "INPUT" "") "hello").ok = true) :=
  ⟨by decide,
   type_sets_value_and_dispatches_once (InputElem.mk "INPUT" "") (by decide)⟩

/-! Claim C9: resolveElementWithRetry terminates on a bounded schedule. -/

/-- The retry loop of resolveElementWithRetry over the remaining attempt
indices: each round performs captureDOM (re-registering uids under refreshed
locators, counted in the second component), looks the uid up again, and on
failure sleeps the progressive delay 100 * (1 + attempt / 2); after the loop
one final lookup (index 11) decides the result. -/
def resolveRetryGo (env : Nat → Option RElem) :
    List Nat → Option RElem × Nat × List Nat
  | [] => (env 11, 0, [])
  | a :: rest =>
    match env (a + 1) with
    | some e => (some e, 1, [])
    | none =>
      let d := 100 * (1 + a / 2)
      let r := resolveRetryGo env rest
      (r.1, r.2.1 + 1, d :: r.2.2)

/-- resolveElementWithRetry from content-script.js with its default bounds
(maxRetries 10, retryDelay 100): the k-th lookup of getElementByUIDSafe is
env k - lookup 0 is the initial attempt, lookups 1..10 follow the retry
loop's captures, lookup 11 is the final attempt.  The result carries the
number of captures performed and the list of delays slept. -/
def resolveElementWithRetry (env : Nat → Option RElem) :
    Option RElem × Nat × List Nat :=
  match env 0 with
  | some e => (some e, 0, [])
  | none => resolveRetryGo env (List.range 10)

theorem resolveRetryGo_pos (env : Nat → Option RElem) (a : Nat) (rest : List Nat) :
    1 ≤ (resolveRetryGo env (a :: rest)).2.1 := by
  simp only [resolveRetryGo]
  cases env (a + 1) with
  | some e => simp
  | none => simp

/-- Claim C9 (confirmed): resolution with retry always terminates; a failed
initial lookup triggers at least one fresh capture, and when every lookup
fails the procedure performs exactly its 10 bounded retry captures, sleeps
the progressive (non-decreasing) schedule 100,100,200,200,...,500,500 and
returns null instead of looping further. -/
theorem resolve_retry_terminates (env : Nat → Option RElem) :
    ((env 0 = none) → 1 ≤ (resolveElementWithRetry env).2.1)
    ∧ ((∀ i, env i = none) →
        (resolveElementWithRetry env).1 = none
        ∧ (resolveElementWithRetry env).2.1 = 10
        ∧ (resolveElementWithRetry env).2.2 =
            [100, 100, 200, 200, 300, 300, 400, 400, 500, 500]
        ∧ (resolveElementWithRetry env).2.2.Chain' (fun a b => a ≤ b)) := by
  have hr : List.range 10 = [0, 1, 2, 3, 4, 5, 6, 7, 8, 9] := by decide
  constructor
  · intro h0
    unfold resolveElementWithRetry
    rw [h0]
    show 1 ≤ (resolveRetryGo env (List.range 10)).2.1
    rw [hr]
    exact resolveRetryGo_pos env 0 _
  · intro hall
    have hmain : resolveElementWithRetry env =
        (none, 10, [100, 100, 200, 200, 300, 300, 400, 400, 500, 500]) := by
      unfold resolveElementWithRetry
      rw [hall 0]
      show resolveRetryGo env (List.range 10) = _
      rw [hr]
      simp [resolveRetryGo, hall]
    refine ⟨by rw [hmain], by rw [hmain], by rw [hmain], ?_⟩
    rw [hmain]
    simp [List.chain'_cons]

theorem resolve_retry_terminates_witness :
    (1 ≤ (resolveElementWithRetry (fun _ => (none : Option RElem))).2.1)
    ∧ ((resolveElementWithRetry (fun _ => (none : Option RElem))).1 = none
      ∧ (resolveElementWithRetry (fun _ => (none : Option RElem))).2.1 = 10
      ∧ (resolveElementWithRetry (fun _ => (none : Option RElem))).2.2 =
          [100, 100, 200, 200, 300, 300, 400, 400, 500, 500]
      ∧ (resolveElementWithRetry (fun _ => (none : Option RElem))).2.2.Chain'
          (fun a b => a ≤ b)) :=
  ⟨(resolve_retry_terminates (fun _ => none)).1 rfl,
   (resolve_retry_terminates (fun _ => none)).2 (fun _ => rfl)⟩

/-! Embedding of the sidebar automation loop (startAutomationLoop in
sidebar.js).  The planning backend (requestNextAction, with its internal
single retry), the page execution channel (executeActionOnPage) and
captureDOMFromPage are consumed as indexed environment streams; timers are
recorded as events in the state.  The user's Stop click can land at any await
point; the model applies it at the representative point right after the
in-flight action's execution returns - the interleaving the cancellation
claims describe. -/

structure DomData where
  elements : List Unit
deriving Repr, DecidableEq

structure PlanAction where
  actionType : String
deriving Repr, DecidableEq

structure ActionPlan where
  complete : Bool
  reason : Option String
  nextAction : Option PlanAction
deriving Repr, DecidableEq

structure PlanResponse where
  actionPlan : Option ActionPlan
deriving Repr, DecidableEq

/-- The response of executeActionOnPage: none models a null response and a
missing success field is the undefined check of the source. -/
structure ExecResponse where
  success : Option Bool
  error : Option String
  message : Option String
  navigated : Bool
  newDom : Option DomData
deriving Repr, DecidableEq

inductive LoopEvent where
  | delayEv (ms : Nat)
  | captureEv
  | planEv
  | execEv
deriving Repr, DecidableEq

inductive Outcome where
  | success (message : String)
  | stopped (message : String)
  | error (message : String)
deriving Repr, DecidableEq

structure LoopEnv where
  plan : Nat → Except String PlanResponse
  exec : Nat → Except String (Option ExecResponse)
  capture : Nat → Option DomData
  stopDuring : Nat → Bool

structure LoopState where
  iteration : Nat
  currentDom : Option DomData
  stopRequested : Bool
  planCount : Nat
  execCount : Nat
  captureCount : Nat
  passCount : Nat
  events : List LoopEvent
deriving Repr, DecidableEq

def maxIterations : Nat := 20

def pushEvents (st : LoopState) (evs : List LoopEvent) : LoopState :=
  { st with events := st.events ++ evs }

/-- The transient failure patterns of the execution retry policy. -/
def transientPatterns : List String :=
  ["element not found", "failed to fetch", "network", "timeout", "detached",
   "stale", "not clickable", "intercepted"]

def execErrMsg (r : ExecResponse) : String :=
  match jsOrStr r.error r.message with
  | some s => s
  | none => ""

def isTransientError (r : ExecResponse) : Bool :=
  transientPatterns.any (fun p => jsIncludes (jsToLower (execErrMsg r)) p)

def execFailMsg (r : ExecResponse) : String :=
  match jsOrStr r.error r.message with
  | some s => s
  | none => "Action execution failed"

/-- A capture attempt is accepted only when it succeeded and yielded at least
one element. -/
def acceptedCapture (r : Option DomData) : Option DomData :=
  r.bind (fun d => if decide (d.elements.length > 0) then some d else none)

/-- The post-navigation capture loop: up to 3 attempts, with delays 800 and
1600 before the second and third, stopping at the first accepted capture. -/
def postNavRecovery (env : LoopEnv) (c0 : Nat) :
    Option DomData × Nat × List LoopEvent :=
  match acceptedCapture (env.capture c0) with
  | some d => (some d, 1, [LoopEvent.captureEv])
  | none =>
    match acceptedCapture (env.capture (c0 + 1)) with
    | some d =>
      (some d, 2,
       [LoopEvent.captureEv, LoopEvent.delayEv 800, LoopEvent.captureEv])
    | none =>
      match acceptedCapture (env.capture (c0 + 2)) with
      | some d =>
        (some d, 3,
         [LoopEvent.captureEv, LoopEvent.delayEv 800, LoopEvent.captureEv,
          LoopEvent.delayEv 1600, LoopEvent.captureEv])
      | none =>
        (none, 3,
         [LoopEvent.captureEv, LoopEvent.delayEv 800, LoopEvent.captureEv,
          LoopEvent.delayEv 1600, LoopEvent.captureEv])

/-- The navigated branch of the loop: wait the 2500 ms settle period, run the
capture loop, and install its result as the current snapshot - null when all
attempts were exhausted, forcing a full recapture next iteration. -/
def navigatedUpdate (env : LoopEnv) (st : LoopState) : LoopState :=
  let st1 := pushEvents st [LoopEvent.delayEv 2500]
  let r := postNavRecovery env st1.captureCount
  { st1 with
    captureCount := st1.captureCount + r.2.1
  , events := st1.events ++ r.2.2
  , currentDom := r.1 }

inductive PassResult where
  | done (o : Outcome) (st : LoopState)
  | next (st : LoopState)
deriving Repr, DecidableEq

/-- The top-of-pass recapture: when the current snapshot is null, wait 1000
ms and capture; a failed capture ends the session. -/
def ensureDom (env : LoopEnv) (st : LoopState) : (DomData × LoopState) ⊕ LoopState :=
  match st.currentDom with
  | some d => Sum.inl (d, st)
  | none =>
    let st1 := { pushEvents st [LoopEvent.delayEv 1000, LoopEvent.captureEv] with
      captureCount := st.captureCount + 1 }
    match env.capture st.captureCount with
    | some d => Sum.inl (d, { st1 with currentDom := some d })
    | none => Sum.inr st1

/-- One body of the while loop of startAutomationLoop: stop check, snapshot
recapture, planner call, completion/empty-plan checks, action execution,
transient-failure retry without counting the iteration, navigation recovery,
iteration count and the 250 ms inter-step delay (skipped when a stop is
pending). -/
def loopPass (env : LoopEnv) (st0 : LoopState) : PassResult :=
  if st0.stopRequested then
    PassResult.done (Outcome.stopped "Execution stopped by user") st0
  else
    match ensureDom env st0 with
    | Sum.inr stf => PassResult.done (Outcome.error "Unable to capture DOM") stf
    | Sum.inl (_dom, st1) =>
      let st2 := { pushEvents st1 [LoopEvent.planEv] with
        planCount := st1.planCount + 1 }
      match env.plan st1.planCount with
      | Except.error msg => PassResult.done (Outcome.error msg) st2
      | Except.ok presp =>
        match presp.actionPlan with
        | none =>
          PassResult.done (Outcome.error "Backend returned an empty action plan") st2
        | some plan =>
          if plan.complete then
            PassResult.done
              (Outcome.success (match plan.reason with
                | some rsn => rsn
                | none => "Goal achieved")) st2
          else
            match plan.nextAction with
            | none =>
              PassResult.done
                (Outcome.error "Backend did not provide a next action") st2
            | some _action =>
              let st3 := { pushEvents st2 [LoopEvent.execEv] with
                execCount := st2.execCount + 1 }
              match env.exec st2.execCount with
              | Except.error msg => PassResult.done (Outcome.error msg) st3
              | Except.ok none =>
                PassResult.done
                  (Outcome.error "Content script returned an unexpected response") st3
              | Except.ok (some r) =>
                let st4 := if env.stopDuring st0.passCount then
                    { st3 with stopRequested := true }
                  else st3
                match r.success with
                | none =>
                  PassResult.done
                    (Outcome.error "Content script returned an unexpected response") st4
                | some false =>
                  if isTransientError r then
                    match r.newDom with
                    | some d =>
                      PassResult.next
                        { pushEvents st4 [LoopEvent.delayEv 150] with
                          currentDom := some d }
                    | none =>
                      let st5 := { pushEvents st4
                          [LoopEvent.delayEv 1000, LoopEvent.captureEv] with
                        captureCount := st4.captureCount + 1 }
                      match env.capture st4.captureCount with
                      | some d =>
                        PassResult.next
                          { pushEvents st5 [LoopEvent.delayEv 150] with
                            currentDom := some d }
                      | none =>
                        PassResult.done (Outcome.error (execFailMsg r)) st5
                  else PassResult.done (Outcome.error (execFailMsg r)) st4
                | some true =>
                  let st5 :=
                    if r.navigated then navigatedUpdate env st4
                    else { st4 with currentDom := r.newDom }
                  let st6 := { st5 with iteration := st5.iteration + 1 }
                  let st7 :=
                    if st6.stopRequested then st6
                    else pushEvents st6 [LoopEvent.delayEv 250]
                  PassResult.next st7

/-- The fuelled while loop: the iteration bound is checked first, the passes
run one by one, and falling out of the loop yields the iteration-limit
failure.  Fuel exhaustion (none) models divergence - transient-failure passes
do not count iterations, so the source loop alone does not bound them. -/
def runLoop (env : LoopEnv) (fuel : Nat) (st : LoopState) :
    Option (Outcome × LoopState) :=
  match fuel with
  | 0 => none
  | fuel' + 1 =>
    if st.iteration < maxIterations then
      match loopPass env st with
      | PassResult.done o stf => some (o, stf)
      | PassResult.next st' =>
        runLoop env fuel' { st' with passCount := st.passCount + 1 }
    else
      some (Outcome.error "Reached iteration limit without completing the task", st)

theorem runLoop_succ (env : LoopEnv) (fuel : Nat) (st : LoopState) :
    runLoop env (fuel + 1) st =
      if st.iteration < maxIterations then
        match loopPass env st with
        | PassResult.done o stf => some (o, stf)
        | PassResult.next st' =>
          runLoop env fuel { st' with passCount := st.passCount + 1 }
      else
        some (Outcome.error "Reached iteration limit without completing the task",
          st) := rfl

/-- One successful pass: with a snapshot at hand, a non-complete plan
carrying an action, and an execution reporting success, the pass continues
the loop, counts the iteration and the planner/executor calls, records
whether the user pressed Stop while the action was in flight, and installs
either the recovery result (after navigation) or the result's snapshot. -/
theorem loopPass_good (env : LoopEnv) (st : LoopState)
    (hst : st.stopRequested = false)
    (hdom : ∃ d, st.currentDom = some d)
    {presp : PlanResponse} {plan : ActionPlan} {act : PlanAction}
    {r : ExecResponse}
    (hplan : env.plan st.planCount = Except.ok presp)
    (hap : presp.actionPlan = some plan)
    (hc : plan.complete = false)
    (hna : plan.nextAction = some act)
    (hexec : env.exec st.execCount = Except.ok (some r))
    (hrs : r.success = some true) :
    ∃ st', loopPass env st = PassResult.next st'
      ∧ st'.iteration = st.iteration + 1
      ∧ st'.planCount = st.planCount + 1
      ∧ st'.execCount = st.execCount + 1
      ∧ st'.passCount = st.passCount
      ∧ st'.stopRequested = env.stopDuring st.passCount
      ∧ st'.currentDom =
          (if r.navigated then (postNavRecovery env st.captureCount).1
           else r.newDom)
      ∧ st'.captureCount = st.captureCount +
          (if r.navigated then (postNavRecovery env st.captureCount).2.1
           else 0) := by
  obtain ⟨d, hd⟩ := hdom
  unfold loopPass ensureDom
  simp only [pushEvents, hst, hd, hplan, hap, hc, hna, hexec, hrs,
    Bool.false_eq_true, if_false]
  cases hsd : env.stopDuring st.passCount with
  | true =>
    cases hnav : r.navigated with
    | true => exact ⟨_, rfl, rfl, rfl, rfl, rfl, rfl, rfl, rfl⟩
    | false => exact ⟨_, rfl, rfl, rfl, rfl, rfl, rfl, rfl, rfl⟩
  | false =>
    cases hnav : r.navigated with
    | true => exact ⟨_, rfl, rfl, rfl, rfl, rfl, rfl, rfl, rfl⟩
    | false => exact ⟨_, rfl, rfl, rfl, rfl, rfl, rfl, rfl, rfl⟩

/-! ### The iteration bound (startAutomationLoop, sidebar.js) -/

/-- An environment in which every pass goes well: the backend always answers
with a non-complete plan carrying a next action, the page always executes it
successfully without navigating and hands back a snapshot, and the user never
presses Stop. -/
def GoodLoopEnv (env : LoopEnv) : Prop :=
  (∀ n, ∃ plan act, env.plan n = Except.ok ⟨some plan⟩
      ∧ plan.complete = false ∧ plan.nextAction = some act)
  ∧ (∀ n, ∃ r, env.exec n = Except.ok (some r)
      ∧ r.success = some true ∧ r.navigated = false
      ∧ ∃ d, r.newDom = some d)
  ∧ (∀ n, env.stopDuring n = false)

theorem runLoop_good_env (env : LoopEnv) (henv : GoodLoopEnv env) :
    ∀ (m : Nat) (st : LoopState), st.stopRequested = false →
      (∃ d, st.currentDom = some d) →
      st.iteration + m = maxIterations →
      ∃ stf, runLoop env (m + 1) st =
          some (Outcome.error
            "Reached iteration limit without completing the task", stf)
        ∧ stf.iteration = maxIterations
        ∧ stf.execCount = st.execCount + m := by
  obtain ⟨hplan, hexec, hstop⟩ := henv
  intro m
  induction m with
  | zero =>
    intro st hsr hdom hit
    refine ⟨st, ?_, by omega, by omega⟩
    rw [runLoop_succ, if_neg (by omega)]
  | succ m ih =>
    intro st hsr hdom hit
    obtain ⟨plan, act, hp, hc, hna⟩ := hplan st.planCount
    obtain ⟨r, he, hrs, hnav, dd0, hnd⟩ := hexec st.execCount
    obtain ⟨st1, hpass, hit1, hplan1, hexec1, hpc1, hsr1, hdom1, hcc1⟩ :=
      loopPass_good env st hsr hdom hp rfl hc hna he hrs
    have hsr1b : st1.stopRequested = false := by rw [hsr1, hstop]
    have hdom1b : ∃ dd, st1.currentDom = some dd := by
      refine ⟨dd0, ?_⟩
      rw [hdom1, if_neg (by rw [hnav]; exact Bool.false_ne_true), hnd]
    obtain ⟨st2, hrun, hi2, he2⟩ :=
      ih { st1 with passCount := st.passCount + 1 } hsr1b hdom1b
        (by show st1.iteration + m = maxIterations; omega)
    have he2b : st2.execCount = st1.execCount + m := he2
    refine ⟨st2, ?_, hi2, by omega⟩
    rw [runLoop_succ, if_pos (by omega), hpass]
    exact hrun

/-- **C3 (amended).**  The loop performs at most maxIterations = 20 counted
iterations: when every pass succeeds with a non-complete plan — so the
planner never signals completion and no pass ends the session early — the
run ends in the Failed outcome carrying the iteration-limit message after
exactly 20 iterations (20 planner calls and 20 executed actions).  The
bound counts iterations, not passes: transient execution failures repeat a
pass without incrementing the iteration counter.  A planner that never
signals completion does NOT always reach the iteration limit: a response
without an action plan ends the run immediately with a different error. -/
theorem loop_ends_iteration_limit_after_20 (env : LoopEnv)
    (henv : GoodLoopEnv env) (st : LoopState)
    (h0 : st.iteration = 0) (hsr : st.stopRequested = false)
    (hdom : ∃ d, st.currentDom = some d) :
    ∃ stf, runLoop env 21 st =
        some (Outcome.error
          "Reached iteration limit without completing the task", stf)
      ∧ stf.iteration = maxIterations
      ∧ stf.execCount = st.execCount + 20 :=
  runLoop_good_env env henv 20 st hsr hdom (by simp [h0, maxIterations])

def dGood : DomData := ⟨[()]⟩

def planGood : ActionPlan := ⟨false, none, some ⟨"click"⟩⟩

def rGood : ExecResponse := ⟨some true, none, none, false, some dGood⟩

def goodEnvC3 : LoopEnv :=
  ⟨fun _ => Except.ok ⟨some planGood⟩, fun _ => Except.ok (some rGood),
   fun _ => some dGood, fun _ => false⟩

def st0Loop : LoopState := ⟨0, some dGood, false, 0, 0, 0, 0, []⟩

theorem loop_ends_iteration_limit_after_20_witness :
    ∃ stf, runLoop goodEnvC3 21 st0Loop =
        some (Outcome.error
          "Reached iteration limit without completing the task", stf)
      ∧ stf.iteration = maxIterations
      ∧ stf.execCount = st0Loop.execCount + 20 :=
  loop_ends_iteration_limit_after_20 goodEnvC3
    ⟨fun _ => ⟨planGood, ⟨"click"⟩, rfl, rfl, rfl⟩,
     fun _ => ⟨rGood, rfl, rfl, rfl, dGood, rfl⟩,
     fun _ => rfl⟩
    st0Loop rfl rfl ⟨dGood, rfl⟩

/-- The backend of the C3 counterexample: it answers every request and
never signals completion, but its responses carry no action plan. -/
def emptyPlanEnv : LoopEnv :=
  ⟨fun _ => Except.ok ⟨none⟩, fun _ => Except.ok none, fun _ => none,
   fun _ => false⟩

/-- **C3, counterexample.**  A planner that never signals completion (its
responses carry no action plan at all, so no plan — complete or not — is
ever delivered) does not drive the loop to the iteration limit: the run
ends at once, after zero iterations, with the empty-action-plan error
instead of the iteration-limit message. -/
theorem loop_iteration_limit_claim_false :
    (∀ n plan, emptyPlanEnv.plan n = Except.ok ⟨some plan⟩ → False)
    ∧ (runLoop emptyPlanEnv 21 st0Loop).map
        (fun p => (p.1, p.2.iteration)) =
      some (Outcome.error "Backend returned an empty action plan", 0) := by
  refine ⟨?_, rfl⟩
  intro n plan hp
  have hpb : Except.ok (PlanResponse.mk none) =
      Except.ok (PlanResponse.mk (some plan)) := hp
  simp at hpb

/-! ### Cooperative cancellation (handleStop / startAutomationLoop) -/

theorem loopPass_stop (env : LoopEnv) (st : LoopState)
    (h : st.stopRequested = true) :
    loopPass env st =
      PassResult.done (Outcome.stopped "Execution stopped by user") st := by
  unfold loopPass
  rw [if_pos h]

/-- **C5 (amended).**  A Stop request landing while an action is in flight
does not abandon it: the pass runs to completion (the iteration and the
executed-action count still advance), and — provided the completed pass was
not the twentieth — the flag is observed at the top of the next pass, which
ends the session in the Stopped outcome without calling the planner or the
page again.  The guarantee fails on the final iteration: the while condition
is tested before the stop flag, so a Stop request during iteration 20 is
never observed and the session ends in the iteration-limit failure instead
of Stopped. -/
theorem stop_flag_observed_next_iteration (env : LoopEnv) (st : LoopState)
    (hst : st.stopRequested = false)
    (hdom : ∃ d, st.currentDom = some d)
    (hit : st.iteration + 1 < maxIterations)
    {presp : PlanResponse} {plan : ActionPlan} {act : PlanAction}
    {r : ExecResponse}
    (hplan : env.plan st.planCount = Except.ok presp)
    (hap : presp.actionPlan = some plan)
    (hc : plan.complete = false)
    (hna : plan.nextAction = some act)
    (hexec : env.exec st.execCount = Except.ok (some r))
    (hrs : r.success = some true)
    (hsd : env.stopDuring st.passCount = true) :
    ∀ fuel, ∃ stf, runLoop env (fuel + 1 + 1) st =
        some (Outcome.stopped "Execution stopped by user", stf)
      ∧ stf.iteration = st.iteration + 1
      ∧ stf.execCount = st.execCount + 1
      ∧ stf.planCount = st.planCount + 1
      ∧ stf.stopRequested = true := by
  intro fuel
  obtain ⟨st1, hpass, hi1, hp1, he1, hpc1, hsr1, hdom1, hcc1⟩ :=
    loopPass_good env st hst hdom hplan hap hc hna hexec hrs
  have hsr1b : st1.stopRequested = true := by rw [hsr1, hsd]
  refine ⟨{ st1 with passCount := st.passCount + 1 }, ?_, hi1, he1, hp1, hsr1b⟩
  rw [runLoop_succ, if_pos (show st.iteration < maxIterations by omega), hpass]
  show runLoop env (fuel + 1) { st1 with passCount := st.passCount + 1 } = _
  rw [runLoop_succ,
    if_pos (show ({ st1 with passCount := st.passCount + 1 } :
      LoopState).iteration < maxIterations by
        show st1.iteration < maxIterations; omega)]
  rw [loopPass_stop env { st1 with passCount := st.passCount + 1 } hsr1b]

/-- The environment of the cancellation scenario: the backend always plans
one more action, the page always executes it, and the user presses Stop
while the very first action is in flight. -/
def stopEnvC5 : LoopEnv :=
  ⟨fun _ => Except.ok ⟨some planGood⟩, fun _ => Except.ok (some rGood),
   fun _ => some dGood, fun _ => true⟩

theorem stop_flag_observed_next_iteration_witness :
    ∃ stf, runLoop stopEnvC5 (0 + 1 + 1) st0Loop =
        some (Outcome.stopped "Execution stopped by user", stf)
      ∧ stf.iteration = st0Loop.iteration + 1
      ∧ stf.execCount = st0Loop.execCount + 1
      ∧ stf.planCount = st0Loop.planCount + 1
      ∧ stf.stopRequested = true :=
  stop_flag_observed_next_iteration stopEnvC5 st0Loop rfl ⟨dGood, rfl⟩
    (by decide) rfl rfl rfl rfl rfl rfl rfl 0

/-- The state at the top of the last allowed iteration. -/
def st19Loop : LoopState := ⟨19, some dGood, false, 0, 0, 0, 0, []⟩

/-- **C5, counterexample.**  Setting the cancellation flag while the
twentieth iteration's action is in flight does not end the session in
Stopped: the iteration completes (the final state carries the requested
flag), but the loop condition is checked before the stop flag, so the run
ends in the iteration-limit failure and the Stop request is never
observed. -/
theorem stop_flag_claim_false :
    (runLoop stopEnvC5 2 st19Loop).map
        (fun p => (p.1, p.2.stopRequested)) =
      some (Outcome.error
        "Reached iteration limit without completing the task", true) := rfl

/-! ### Post-navigation recovery (handleExecuteAction, content-script.js,
and the navigated branch of startAutomationLoop) -/

/-- The result object executeAction hands back inside the content script:
the success flag and the navigationPending marker set by handlers that
expect a page load. -/
structure ContentActionResult where
  success : Bool
  navigationPending : Bool
deriving Repr, DecidableEq

/-- The fields of handleExecuteAction's response the loop consumes. -/
structure ContentResponse where
  success : Bool
  navigated : Bool
  newDom : Option DomData
deriving Repr, DecidableEq

/-- handleExecuteAction (content-script.js): navigated is the URL check OR
the navigationPending marker, and the post-action captureDOM is skipped
exactly when navigationPending is set.  The second component counts the
captureDOM calls performed; freshCapture is the snapshot such a call would
produce. -/
def handleExecuteAction (urlChanged : Bool) (result : ContentActionResult)
    (freshCapture : DomData) : ContentResponse × Nat :=
  if result.navigationPending then
    (⟨result.success, urlChanged || result.navigationPending, none⟩, 0)
  else
    (⟨result.success, urlChanged || result.navigationPending,
      some freshCapture⟩, 1)

/-- The first accepted capture among the (at most three) attempts - the
candidate stream the recovery claim describes. -/
def firstAcceptedCapture (env : LoopEnv) (c0 : Nat) : Option DomData :=
  (List.range 3).findSome? (fun j => acceptedCapture (env.capture (c0 + j)))

theorem acceptedCapture_pos {r : Option DomData} {d : DomData}
    (h : acceptedCapture r = some d) : 0 < d.elements.length := by
  cases r with
  | none => cases h
  | some d0 =>
    by_cases hd : 0 < d0.elements.length
    · have h1 : acceptedCapture (some d0) = some d0 := by
        unfold acceptedCapture
        simp [hd]
      rw [h1] at h
      cases h
      exact hd
    · have h1 : acceptedCapture (some d0) = none := by
        unfold acceptedCapture
        simp [hd]
      rw [h1] at h
      cases h

theorem firstAcceptedCapture_eq (env : LoopEnv) (c0 : Nat) :
    firstAcceptedCapture env c0 = (postNavRecovery env c0).1 := by
  unfold firstAcceptedCapture postNavRecovery
  show List.findSome? (fun j => acceptedCapture (env.capture (c0 + j)))
    [0, 1, 2] = _
  simp only [List.findSome?]
  rw [Nat.add_zero]
  cases h0 : acceptedCapture (env.capture c0) with
  | some d => rfl
  | none =>
    cases h1 : acceptedCapture (env.capture (c0 + 1)) with
    | some d => rfl
    | none =>
      cases h2 : acceptedCapture (env.capture (c0 + 2)) with
      | some d => rfl
      | none => rfl

theorem postNavRecovery_attempts (env : LoopEnv) (c0 : Nat) :
    1 ≤ (postNavRecovery env c0).2.1 ∧ (postNavRecovery env c0).2.1 ≤ 3 := by
  unfold postNavRecovery
  cases h0 : acceptedCapture (env.capture c0) with
  | some d => exact ⟨(by decide : (1 : Nat) ≤ 1), (by decide : (1 : Nat) ≤ 3)⟩
  | none =>
    cases h1 : acceptedCapture (env.capture (c0 + 1)) with
    | some d => exact ⟨(by decide : (1 : Nat) ≤ 2), (by decide : (2 : Nat) ≤ 3)⟩
    | none =>
      cases h2 : acceptedCapture (env.capture (c0 + 2)) with
      | some d => exact ⟨(by decide : (1 : Nat) ≤ 3), (by decide : (3 : Nat) ≤ 3)⟩
      | none => exact ⟨(by decide : (1 : Nat) ≤ 3), (by decide : (3 : Nat) ≤ 3)⟩

theorem postNavRecovery_pos (env : LoopEnv) (c0 : Nat) {d : DomData}
    (h : (postNavRecovery env c0).1 = some d) : 0 < d.elements.length := by
  unfold postNavRecovery at h
  cases h0 : acceptedCapture (env.capture c0) with
  | some d0 =>
    rw [h0] at h
    have hb : some d0 = some d := h
    cases hb
    exact acceptedCapture_pos h0
  | none =>
    rw [h0] at h
    cases h1 : acceptedCapture (env.capture (c0 + 1)) with
    | some d0 =>
      rw [h1] at h
      have hb : some d0 = some d := h
      cases hb
      exact acceptedCapture_pos h1
    | none =>
      rw [h1] at h
      cases h2 : acceptedCapture (env.capture (c0 + 2)) with
      | some d0 =>
        rw [h2] at h
        have hb : some d0 = some d := h
        cases hb
        exact acceptedCapture_pos h2
      | none =>
        rw [h2] at h
        exact Option.noConfusion (show (none : Option DomData) = some d from h)

theorem postNavRecovery_none (env : LoopEnv) (c0 : Nat)
    (h : ∀ j, j < 3 → acceptedCapture (env.capture (c0 + j)) = none) :
    (postNavRecovery env c0).1 = none ∧ (postNavRecovery env c0).2.1 = 3 := by
  have h0 : acceptedCapture (env.capture c0) = none := h 0 (by decide)
  have h1 : acceptedCapture (env.capture (c0 + 1)) = none := h 1 (by decide)
  have h2 : acceptedCapture (env.capture (c0 + 2)) = none := h 2 (by decide)
  unfold postNavRecovery
  rw [h0, h1, h2]
  exact ⟨rfl, rfl⟩

/-- **C4.**  Post-navigation recovery.  (1) When the action result reports
navigation-pending, handleExecuteAction performs no captureDOM call, sends
a null snapshot and flags navigated.  (2) The recovery loop's result is the
first accepted capture of its attempt stream, it makes between 1 and 3
attempts, and any snapshot it installs has at least one element.  (3) The
navigated branch first waits the 2500 ms settle period, then runs the
recovery attempts, and installs the recovery result as the current
snapshot.  (4) When every capture attempt is rejected, a successful
navigated pass still continues the loop - the snapshot is merely nulled,
forcing a full recapture on the next iteration. -/
theorem post_navigation_recovery_behavior :
    (∀ (urlChanged : Bool) (res : ContentActionResult) (cap : DomData),
        res.navigationPending = true →
        (handleExecuteAction urlChanged res cap).2 = 0
        ∧ (handleExecuteAction urlChanged res cap).1.newDom = none
        ∧ (handleExecuteAction urlChanged res cap).1.navigated = true)
    ∧ (∀ (env : LoopEnv) (c0 : Nat),
        (postNavRecovery env c0).1 = firstAcceptedCapture env c0)
    ∧ (∀ (env : LoopEnv) (c0 : Nat),
        1 ≤ (postNavRecovery env c0).2.1
        ∧ (postNavRecovery env c0).2.1 ≤ 3
        ∧ ∀ d, (postNavRecovery env c0).1 = some d → 0 < d.elements.length)
    ∧ (∀ (env : LoopEnv) (st : LoopState),
        (navigatedUpdate env st).events =
          st.events ++ [LoopEvent.delayEv 2500]
            ++ (postNavRecovery env st.captureCount).2.2
        ∧ (navigatedUpdate env st).currentDom =
            (postNavRecovery env st.captureCount).1)
    ∧ (∀ (env : LoopEnv) (st : LoopState), st.stopRequested = false →
        (∃ d, st.currentDom = some d) →
        ∀ (presp : PlanResponse) (plan : ActionPlan) (act : PlanAction)
          (r : ExecResponse),
          env.plan st.planCount = Except.ok presp →
          presp.actionPlan = some plan → plan.complete = false →
          plan.nextAction = some act →
          env.exec st.execCount = Except.ok (some r) →
          r.success = some true → r.navigated = true →
          (∀ j, j < 3 →
            acceptedCapture (env.capture (st.captureCount + j)) = none) →
          ∃ stg, loopPass env st = PassResult.next stg
            ∧ stg.currentDom = none) := by
  refine ⟨?_, ?_, ?_, ?_, ?_⟩
  · intro urlChanged res cap hp
    unfold handleExecuteAction
    rw [if_pos hp, hp, Bool.or_true]
    exact ⟨rfl, rfl, rfl⟩
  · intro env c0
    exact (firstAcceptedCapture_eq env c0).symm
  · intro env c0
    exact ⟨(postNavRecovery_attempts env c0).1,
      (postNavRecovery_attempts env c0).2,
      fun d hd => postNavRecovery_pos env c0 hd⟩
  · intro env st
    exact ⟨rfl, rfl⟩
  · intro env st hst hdom presp plan act r hplan hap hc hna hexec hrs hnav hcap
    obtain ⟨st1, hpass, hi1, hp1, he1, hpc1, hsr1, hdom1, hcc1⟩ :=
      loopPass_good env st hst hdom hplan hap hc hna hexec hrs
    refine ⟨st1, hpass, ?_⟩
    rw [hdom1, if_pos hnav]
    exact (postNavRecovery_none env st.captureCount hcap).1

/-- A navigated successful execution result carrying no snapshot. -/
def rNavGood : ExecResponse := ⟨some true, none, none, true, none⟩

/-- An environment whose every capture attempt fails. -/
def noCapEnv : LoopEnv :=
  ⟨fun _ => Except.ok ⟨some planGood⟩, fun _ => Except.ok (some rNavGood),
   fun _ => none, fun _ => false⟩

theorem post_navigation_recovery_behavior_witness :
    ((handleExecuteAction false ⟨true, true⟩ dGood).2 = 0
      ∧ (handleExecuteAction false ⟨true, true⟩ dGood).1.newDom = none
      ∧ (handleExecuteAction false ⟨true, true⟩ dGood).1.navigated = true)
    ∧ (∃ stg, loopPass noCapEnv st0Loop = PassResult.next stg
        ∧ stg.currentDom = none) :=
  ⟨post_navigation_recovery_behavior.1 false ⟨true, true⟩ dGood rfl,
   post_navigation_recovery_behavior.2.2.2.2 noCapEnv st0Loop rfl
     ⟨dGood, rfl⟩ ⟨some planGood⟩ planGood ⟨"click"⟩ rNavGood
     rfl rfl rfl rfl rfl rfl rfl (fun _ _ => rfl)⟩

end BrowserAgent
